import Mathlib

/-!
Verification of the DevMind multi-provider LLM gateway (TypeScript sources
under `src/sdk/` and `src/unnamed/`).  The definitions below are a shallow
embedding of the gateway's data model and operations, translated directly
from the TypeScript source; the theorems at the end of the file settle the
frozen behavioural claims about that code.

Conventions of the embedding:
* timestamps are integer milliseconds (`Nat` where JS subtraction cannot go
  negative on the modelled paths, `Int` where it can);
* JS `Record<string, unknown>` argument objects of tool calls are modelled
  as flat association lists `List (String × String)` (the shape the repo
  actually produces and tests);
* `JSON.parse` / `JSON.stringify` of the ambient runtime are modelled by a
  small strict codec over that restricted value shape;
* async control flow is modelled by explicit state passing: a provider
  stream becomes a pure function from the vendor-event list to the emitted
  chunk list, and `try/finally` becomes explicit trace construction.
-/

set_option maxHeartbeats 1000000

deriving instance DecidableEq for Except

namespace DevMind

-- ==========================================================
-- DATA MODEL  (src/unnamed/part_010, types.ts)
-- ==========================================================

inductive ProviderName
  | gemini
  | openai
  | anthropic
  | ollama
deriving DecidableEq, Repr

/-- Flat JSON-object model for `Record<string, unknown>` tool-call
argument bags: an association list from keys to string values. -/
abbrev Args := List (String × String)

/-- Lookup in an argument bag (first binding wins, like JS property read). -/
def argsLookup (a : Args) (k : String) : Option String :=
  match a with
  | [] => none
  | kv :: rest => if kv.1 = k then some kv.2 else argsLookup rest k

/-- JS object spread `{...a, ...b}`: keys of `a` keep their position but
take `b`'s value when `b` also has the key; keys only in `b` are appended
in `b`'s order. -/
def spreadMerge (a b : Args) : Args :=
  a.map (fun kv => (kv.1, (argsLookup b kv.1).getD kv.2)) ++
    b.filter (fun kv => (argsLookup a kv.1).isNone)

structure ToolCall where
  id : String
  name : String
  arguments : Args
deriving DecidableEq, Repr

/-- `Partial<ToolCall>`: every field optional, as produced by streaming
fragments and consumed by `StreamProcessor.processToolCallChunk`. -/
structure PartialToolCall where
  id : Option String := none
  name : Option String := none
  arguments : Option Args := none
deriving DecidableEq, Repr

structure TokenUsage where
  promptTokens : Nat
  completionTokens : Nat
  totalTokens : Nat
deriving DecidableEq, Repr

inductive MessageRole
  | system
  | user
  | assistant
  | tool
deriving DecidableEq, Repr

inductive ContentPartType
  | text
  | image
  | audio
deriving DecidableEq, Repr

structure ContentPart where
  type : ContentPartType
  text : Option String := none
  imageUrl : Option String := none
  imageBase64 : Option String := none
  mimeType : Option String := none
deriving DecidableEq, Repr

/-- `content: string | ContentPart[]`. -/
inductive MessageContent
  | str (s : String)
  | parts (ps : List ContentPart)
deriving DecidableEq, Repr

structure Message where
  role : MessageRole
  content : MessageContent
  name : Option String := none
  toolCalls : Option (List ToolCall) := none
  toolCallId : Option String := none
deriving DecidableEq, Repr

inductive FinishReason
  | stop
  | length
  | tool_calls
  | content_filter
  | error
deriving DecidableEq, Repr

-- ==========================================================
-- JSON CODEC MODEL (ambient JSON.parse / JSON.stringify,
-- restricted to the value shapes the gateway serialises)
-- ==========================================================

/-- JSON values as used for tool parameter schemas. -/
inductive Json
  | str (s : String)
  | num (n : Int)
  | boolean (b : Bool)
  | null
  | arr (xs : List Json)
  | obj (fields : List (String × Json))

/-- Escape a character for a JSON string literal (quote and backslash,
the only special characters appearing in the modelled strings). -/
def escChar (c : Char) : String :=
  if c = '"' then "\\\"" else if c = '\\' then "\\\\" else String.singleton c

def escapeJson (s : String) : String :=
  String.join (s.data.map escChar)

def jquote (s : String) : String :=
  "\"" ++ escapeJson s ++ "\""

mutual

/-- `JSON.stringify` on the modelled value shape. -/
def Json.stringify : Json → String
  | .str s => jquote s
  | .num n => toString n
  | .boolean b => if b then "true" else "false"
  | .null => "null"
  | .arr xs => "[" ++ String.intercalate "," (stringifyList xs) ++ "]"
  | .obj fs => "\x7b" ++ String.intercalate "," (stringifyFields fs) ++ "\x7d"

def stringifyList : List Json → List String
  | [] => []
  | x :: xs => Json.stringify x :: stringifyList xs

def stringifyFields : List (String × Json) → List String
  | [] => []
  | f :: fs => (jquote f.1 ++ ":" ++ Json.stringify f.2) :: stringifyFields fs

end

/-- Consume a JSON string literal (no escape handling; the modelled vendor
fragments contain none) from a character list: expects a leading quote,
returns the contents and the remaining characters. -/
def takeJsonString : List Char → Option (String × List Char)
  | '"' :: rest => go rest ""
  | _ => none
where
  go : List Char → String → Option (String × List Char)
    | [], _ => none
    | '"' :: rest, acc => some (acc, rest)
    | c :: rest, acc => go rest (acc.push c)

/-- Parse the `"key":"value"` pairs of a flat JSON object, after the
opening brace.  `fuel` bounds recursion by the input length. -/
def parseJsonPairs : Nat → List Char → Args → Option Args
  | 0, _, _ => none
  | fuel + 1, cs, acc =>
    match takeJsonString cs with
    | none => none
    | some (key, rest) =>
      match rest with
      | ':' :: rest2 =>
        match takeJsonString rest2 with
        | none => none
        | some (val, rest3) =>
          match rest3 with
          | '\x7d' :: [] => some (acc ++ [(key, val)])
          | ',' :: rest4 => parseJsonPairs fuel rest4 (acc ++ [(key, val)])
          | _ => none
      | _ => none

/-- `JSON.parse` restricted to flat string-valued objects (the shape of the
gateway's streamed tool-call argument fragments): returns `none` exactly
when the runtime parse would throw on such inputs (truncated or otherwise
malformed text). -/
def jsonParseObj (s : String) : Option Args :=
  match s.data with
  | '\x7b' :: '\x7d' :: [] => some []
  | '\x7b' :: rest => parseJsonPairs rest.length rest []
  | _ => none

-- ==========================================================
-- CIRCUIT BREAKER  (src/sdk/utils/streaming.ts lines 416-478,
-- the concatenated retry.ts section: class CircuitBreaker)
-- ==========================================================

inductive CBMode
  | closed
  | «open»
  | halfOpen
deriving DecidableEq, Repr

structure CBState where
  failures : Nat
  lastFailure : Nat
  state : CBMode
deriving DecidableEq, Repr

/-- Initial state of a freshly constructed breaker. -/
def CBState.init : CBState := { failures := 0, lastFailure := 0, state := .closed }

/-- `onSuccess()`. -/
def cbOnSuccess (st : CBState) : CBState :=
  { st with failures := 0, state := .closed }

/-- `onFailure()` at wall-clock time `now`. -/
def cbOnFailure (failureThreshold : Nat) (st : CBState) (now : Nat) : CBState :=
  let failures := st.failures + 1
  { failures := failures
    lastFailure := now
    state := if failures ≥ failureThreshold then .«open» else st.state }

/-- Result of one `execute` call: was the wrapped function invoked, did the
call produce a value, and the successor state. -/
structure CBOutcome where
  invoked : Bool
  rejectedOpen : Bool
  succeeded : Bool
  state : CBState
deriving DecidableEq, Repr

/-- `CircuitBreaker.execute(fn)` at time `now`; `fnSucceeds` is the outcome
of the wrapped call when it is invoked.  Mirrors the source line by line:
open-state calls reject unless strictly more than `resetTimeoutMs` has
elapsed since the last failure, in which case the state moves to half-open
and the call proceeds; a successful call resets the failure counter and
closes the breaker; a failing call increments the counter, records the
failure time, and opens the breaker at the threshold. -/
def cbExecute (failureThreshold resetTimeoutMs : Nat) (st : CBState) (now : Nat)
    (fnSucceeds : Bool) : CBOutcome :=
  let st1 :=
    if st.state = .«open» then
      if now - st.lastFailure > resetTimeoutMs then { st with state := .halfOpen } else st
    else st
  if st1.state = .«open» then
    { invoked := false, rejectedOpen := true, succeeded := false, state := st1 }
  else if fnSucceeds then
    { invoked := true, rejectedOpen := false, succeeded := true, state := cbOnSuccess st1 }
  else
    { invoked := true, rejectedOpen := false, succeeded := false,
      state := cbOnFailure failureThreshold st1 now }

/-- The breaker state after a sequence of failing calls at the given times. -/
def cbFailMany (failureThreshold resetTimeoutMs : Nat) (st : CBState) :
    List Nat → CBState
  | [] => st
  | t :: ts =>
    cbFailMany failureThreshold resetTimeoutMs
      (cbExecute failureThreshold resetTimeoutMs st t false).state ts

-- ==========================================================
-- REQUEST / RESPONSE MODEL  (types.ts continued)
-- ==========================================================

/-- JS truthiness of an optional string property: present and non-empty. -/
def strTruthy : Option String → Bool
  | some s => s ≠ ""
  | none => false

structure ToolDefinition where
  name : String
  description : String
  parameters : Json
  execute : Option (Args → Except String String) := none

structure ChatRequest where
  messages : List Message
  model : Option String := none
  maxTokens : Option Nat := none
  systemPrompt : Option String := none
  tools : Option (List ToolDefinition) := none

/-- `toolCalls?: ToolCall[]` — every consumer reads it through
`response.toolCalls?.length`, which identifies `undefined` with `[]`,
so the embedding uses the plain list. -/
structure ChatResponse where
  id : String
  model : String
  content : String
  toolCalls : List ToolCall := []
  usage : TokenUsage
  finishReason : FinishReason
  provider : ProviderName
deriving DecidableEq, Repr

inductive StreamChunk
  | text (content : String)
  | tool_call (tc : PartialToolCall)
  | thinking (content : String)
  | usage (u : TokenUsage)
  | error (msg : String)
  | done
deriving DecidableEq, Repr

-- ==========================================================
-- TOKEN ESTIMATION (src/sdk/providers/base.ts lines 130-168)
-- ==========================================================

/-- `estimateTokens`: `Math.ceil(text.length / 4)`. -/
def estimateTokens (text : String) : Nat :=
  (text.length + 3) / 4

/-- `JSON.stringify(tool)` for a `ToolDefinition`: `execute` is a function
(or absent) and is therefore omitted by the serializer. -/
def stringifyToolDef (t : ToolDefinition) : String :=
  "\x7b\"name\":" ++ jquote t.name ++ ",\"description\":" ++ jquote t.description ++
    ",\"parameters\":" ++ Json.stringify t.parameters ++ "\x7d"

def estimateContentPart (p : ContentPart) : Nat :=
  (if strTruthy p.text then estimateTokens (p.text.getD "") else 0) +
    (if strTruthy p.imageUrl || strTruthy p.imageBase64 then 500 else 0)

def estimateMessageTokens (m : Message) : Nat :=
  match m.content with
  | .str s => estimateTokens s
  | .parts ps => (ps.map estimateContentPart).sum

/-- `BaseProvider.estimateRequestTokens`. -/
def estimateRequestTokens (req : ChatRequest) : Nat :=
  (if strTruthy req.systemPrompt then estimateTokens (req.systemPrompt.getD "") else 0) +
    (req.messages.map estimateMessageTokens).sum +
    (match req.tools with
     | some ts => (ts.map (fun t => estimateTokens (stringifyToolDef t))).sum
     | none => 0)

-- ==========================================================
-- SLIDING WINDOW RATE LIMITER (src/sdk/utils/rate-limit.ts
-- lines 101-146). Timestamps are Int milliseconds so that the
-- JS cutoff `Date.now() - windowMs` keeps its sign.
-- ==========================================================

/-- `cleanup()`: drop timestamps at or before `now - windowMs`. -/
def swCleanup (windowMs now : Int) (requests : List Int) : List Int :=
  requests.filter (fun t => t > now - windowMs)

structure SWAcquireResult where
  state : List Int
  sleptMs : Int
  resumeTime : Int
deriving DecidableEq, Repr

/-- `SlidingWindowRateLimiter.acquire()` called at time `now`:
prune, and when at capacity sleep until the oldest timestamp exits the
window (then prune again), finally record the current time.  `sleptMs`
is the duration of the single `setTimeout` suspension (0 when none), and
`resumeTime` the wall-clock time at which the push happens. -/
def swAcquire (maxRequests : Nat) (windowMs : Int) (requests : List Int)
    (now : Int) : SWAcquireResult :=
  let reqs := swCleanup windowMs now requests
  if maxRequests ≤ reqs.length then
    match reqs.head? with
    | none =>
      -- only reachable with maxRequests = 0: `this.requests[0]` is undefined,
      -- the NaN wait time fails the `> 0` test and no sleep happens
      { state := reqs ++ [now], sleptMs := 0, resumeTime := now }
    | some oldest =>
      let waitTime := oldest + windowMs - now
      if 0 < waitTime then
        let resume := now + waitTime
        { state := swCleanup windowMs resume reqs ++ [resume]
          sleptMs := waitTime
          resumeTime := resume }
      else
        { state := reqs ++ [now], sleptMs := 0, resumeTime := now }
  else
    { state := reqs ++ [now], sleptMs := 0, resumeTime := now }

/-- `getRequestCount()`. -/
def swRequestCount (windowMs now : Int) (requests : List Int) : Nat :=
  (swCleanup windowMs now requests).length

/-- `getRemainingRequests()`: `Math.max(0, maxRequests - length)` is the
truncated subtraction. -/
def getRemainingRequests (maxRequests : Nat) (windowMs now : Int)
    (requests : List Int) : Nat :=
  maxRequests - (swCleanup windowMs now requests).length

/-- The limiter state after a sequence of `acquire()` calls at the given
times. -/
def swAcquireMany (maxRequests : Nat) (windowMs : Int) (requests : List Int) :
    List Int → List Int
  | [] => requests
  | t :: ts =>
    swAcquireMany maxRequests windowMs
      (swAcquire maxRequests windowMs requests t).state ts

-- ==========================================================
-- TOOL EXECUTION (src/sdk/client.ts lines 277-316,
-- LLMClient.executeTools)
-- ==========================================================

structure ToolResult where
  toolCallId : String
  result : String
  isError : Bool := false
deriving DecidableEq, Repr

def findTool (tools : List ToolDefinition) (nm : String) : Option ToolDefinition :=
  tools.find? (fun t => t.name = nm)

/-- One iteration of the `executeTools` loop: missing tool or missing
executor yields an `isError` result naming the tool; a throwing executor
(modelled as `Except.error`) is caught and converted for this call alone. -/
def executeToolCall (tools : List ToolDefinition) (call : ToolCall) : ToolResult :=
  match (findTool tools call.name).bind (fun t => t.execute) with
  | none =>
    { toolCallId := call.id
      result := "Error: Tool '" ++ call.name ++ "' not found or has no executor"
      isError := true }
  | some exec =>
    match exec call.arguments with
    | .ok r => { toolCallId := call.id, result := r }
    | .error e => { toolCallId := call.id, result := "Error: " ++ e, isError := true }

def executeToolsLoop (tools : List ToolDefinition) : List ToolCall → List ToolResult
  | [] => []
  | call :: rest => executeToolCall tools call :: executeToolsLoop tools rest

/-- `LLMClient.executeTools(response, tools)`. -/
def executeTools (response : ChatResponse) (tools : List ToolDefinition) :
    List ToolResult :=
  if response.toolCalls.isEmpty then [] else executeToolsLoop tools response.toolCalls

-- ==========================================================
-- STREAM PROCESSOR (src/sdk/utils/streaming.ts lines 11-127)
-- ==========================================================

/-- JS `Map` get. -/
def assocGet {κ α : Type} [DecidableEq κ] (m : List (κ × α)) (k : κ) : Option α :=
  match m with
  | [] => none
  | kv :: rest => if kv.1 = k then some kv.2 else assocGet rest k

/-- JS `Map` set: replace in place, preserving insertion order, else append. -/
def assocSet {κ α : Type} [DecidableEq κ] (m : List (κ × α)) (k : κ) (v : α) :
    List (κ × α) :=
  match m with
  | [] => [(k, v)]
  | kv :: rest => if kv.1 = k then (k, v) :: rest else kv :: assocSet rest k v

structure SPState where
  textBuffer : String := ""
  toolCallBuffer : List (String × PartialToolCall) := []
  thinkingBuffer : String := ""
  usage : Option TokenUsage := none
deriving DecidableEq, Repr

/-- `StreamProcessor.processToolCallChunk`: a fragment with a falsy `id`
is dropped; otherwise spread-merge onto the buffered entry, key-merging
the argument objects when both sides carry one. -/
def processToolCallChunk (st : SPState) (part : PartialToolCall) : SPState :=
  if strTruthy part.id then
    let pid := part.id.getD ""
    let existing := (assocGet st.toolCallBuffer pid).getD {}
    let updated0 : PartialToolCall :=
      { id := if part.id.isSome then part.id else existing.id
        name := if part.name.isSome then part.name else existing.name
        arguments := if part.arguments.isSome then part.arguments else existing.arguments }
    let updated :=
      match existing.arguments, part.arguments with
      | some ea, some pa => { updated0 with arguments := some (spreadMerge ea pa) }
      | _, _ => updated0
    { st with toolCallBuffer := assocSet st.toolCallBuffer pid updated }
  else st

/-- `StreamProcessor.processChunk`: `error` only invokes the `onError`
callback and `done` only reports the finalized calls; neither changes the
accumulated state. -/
def processChunk (st : SPState) (c : StreamChunk) : SPState :=
  match c with
  | .text s => if s ≠ "" then { st with textBuffer := st.textBuffer ++ s } else st
  | .tool_call tc => processToolCallChunk st tc
  | .thinking s => if s ≠ "" then { st with thinkingBuffer := st.thinkingBuffer ++ s } else st
  | .usage u => { st with usage := some u }
  | .error _ => st
  | .done => st

/-- The list of completed calls: the common loop body of
`finalizeToolCalls` (reported through `onToolCall` on `done`) and
`getToolCalls` — a buffer entry is emitted only with a truthy `name` and
a present `arguments` object. -/
def getToolCalls (st : SPState) : List ToolCall :=
  st.toolCallBuffer.filterMap (fun kv =>
    match kv.2.name, kv.2.arguments with
    | some nm, some args =>
      if nm ≠ "" then some { id := kv.1, name := nm, arguments := args } else none
    | _, _ => none)

-- ==========================================================
-- GATEWAY CHAT PIPELINE (src/sdk/client.ts lines 126-210:
-- acquireSlot / releaseSlot / chat / chatWith).  `chat` and
-- `chatWith` share one body up to the provider lookup; the
-- embedding models that common body.  Suspension outcomes of
-- the collaborators (rate limiter, adapter) are inputs, and
-- the visible effect sequence is an explicit event trace.
-- ==========================================================

inductive ChatEvent
  | acquireSlot
  | limiterAcquire (cost : Option Nat)
  | adapterCall
  | releaseSlot
deriving DecidableEq, Repr

def isOkE {ε α : Type} : Except ε α → Bool
  | .ok _ => true
  | .error _ => false

/-- The call's environment: whether a `CombinedRateLimiter` is registered
for the provider (`providerLimiters.get` hit) and, when so, how its
`acquire` resolves; the provider's circuit breaker (always registered by
`initializeProviders`); the wall clock; and how the adapter's `chat`
resolves when invoked. -/
structure ChatEnv where
  limiter : Option (Except String Unit)
  breakerK : Nat
  breakerT : Nat
  breaker : CBState
  now : Nat
  adapter : Except String ChatResponse
deriving DecidableEq, Repr

structure ChatCallResult where
  result : Except String ChatResponse
  trace : List ChatEvent
  breaker : CBState
deriving DecidableEq, Repr

/-- The body after the limiter step: `cb.execute(() => provider.chat(request))`
followed by the `finally { this.releaseSlot() }`. -/
def clientChatCore (env : ChatEnv) (pre : List ChatEvent) : ChatCallResult :=
  let o := cbExecute env.breakerK env.breakerT env.breaker env.now (isOkE env.adapter)
  if o.invoked then
    { result := env.adapter, trace := pre ++ [.adapterCall, .releaseSlot], breaker := o.state }
  else
    { result := .error "Circuit breaker is open"
      trace := pre ++ [.releaseSlot]
      breaker := o.state }

/-- `LLMClient.chat(request)` / `chatWith(name, request)`: acquire the
global slot; inside `try`, acquire the provider's rate-limit token with
`request.maxTokens` when a limiter is registered, then run the adapter
through the provider's breaker; `finally` releases the slot on every
path, including a throwing limiter. -/
def clientChat (req : ChatRequest) (env : ChatEnv) : ChatCallResult :=
  match env.limiter with
  | none => clientChatCore env [.acquireSlot]
  | some (.ok _) => clientChatCore env [.acquireSlot, .limiterAcquire req.maxTokens]
  | some (.error e) =>
    { result := .error e
      trace := [.acquireSlot, .limiterAcquire req.maxTokens, .releaseSlot]
      breaker := env.breaker }

-- ==========================================================
-- CONFIGURATION (src/sdk/config.ts) and client construction
-- (src/sdk/client.ts lines 39-123)
-- ==========================================================

structure RateLimitConfig where
  requestsPerMinute : Nat
  tokensPerMinute : Option Nat := none
deriving DecidableEq, Repr

structure ProviderConfig where
  name : ProviderName
  apiKey : Option String := none
  baseUrl : Option String := none
  defaultModel : Option String := none
  rateLimit : Option RateLimitConfig := none
  timeout : Option Nat := none
deriving DecidableEq, Repr

structure ClientConfig where
  providers : List ProviderConfig
  defaultProvider : ProviderName
  defaultModel : Option String := none
  debug : Bool := false
deriving DecidableEq, Repr

def ProviderName.toStr : ProviderName → String
  | .gemini => "gemini"
  | .openai => "openai"
  | .anthropic => "anthropic"
  | .ollama => "ollama"

def DEFAULT_RATE_LIMITS : ProviderName → RateLimitConfig
  | .gemini => { requestsPerMinute := 60, tokensPerMinute := some 1000000 }
  | .openai => { requestsPerMinute := 60, tokensPerMinute := some 150000 }
  | .anthropic => { requestsPerMinute := 60, tokensPerMinute := some 100000 }
  | .ollama => { requestsPerMinute := 1000 }

def DEFAULT_MODELS : ProviderName → String
  | .gemini => "gemini-2.5-pro"
  | .openai => "gpt-4o"
  | .anthropic => "claude-3-5-sonnet-20241022"
  | .ollama => "llama3.2"

def DEFAULT_TIMEOUTS : ProviderName → Nat
  | .gemini => 120000
  | .openai => 60000
  | .anthropic => 60000
  | .ollama => 300000

def PROVIDER_BASE_URLS : ProviderName → String
  | .gemini => "https://generativelanguage.googleapis.com"
  | .openai => "https://api.openai.com/v1"
  | .anthropic => "https://api.anthropic.com/v1"
  | .ollama => "http://localhost:11434"

/-- JS `a || d` on an optional string: falsy (`undefined` or `""`) falls
through to the default. -/
def strOrD (o : Option String) (d : String) : String :=
  if strTruthy o then o.getD d else d

/-- JS `a || d` on an optional number: falsy (`undefined` or `0`) falls
through to the default. -/
def natOrD (o : Option Nat) (d : Nat) : Nat :=
  match o with
  | some n => if n ≠ 0 then n else d
  | none => d

structure BuilderState where
  providers : List ProviderConfig := []
  defaultProvider : Option ProviderName := none
  defaultModel : Option String := none
  debug : Option Bool := none
deriving DecidableEq, Repr

/-- `ConfigBuilder.addProvider`: fill rate limit, timeout and default
model from the per-provider defaults when absent (or falsy). -/
def addProvider (b : BuilderState) (c : ProviderConfig) : BuilderState :=
  { b with providers := b.providers ++ [{ c with
      rateLimit := some (c.rateLimit.getD (DEFAULT_RATE_LIMITS c.name))
      timeout := some (natOrD c.timeout (DEFAULT_TIMEOUTS c.name))
      defaultModel := some (strOrD c.defaultModel (DEFAULT_MODELS c.name)) }] }

/-- `addGemini(apiKey?)`: `apiKey || this.getEnvKey('gemini')`; the
embedding models the no-environment context, where `getEnvKey` yields
`undefined`. -/
def addGemini (b : BuilderState) (apiKey : Option String) : BuilderState :=
  addProvider b { name := .gemini, apiKey := if strTruthy apiKey then apiKey else none }

def addOpenAI (b : BuilderState) (apiKey : Option String) : BuilderState :=
  addProvider b { name := .openai, apiKey := if strTruthy apiKey then apiKey else none }

def addAnthropic (b : BuilderState) (apiKey : Option String) : BuilderState :=
  addProvider b { name := .anthropic, apiKey := if strTruthy apiKey then apiKey else none }

def addOllama (b : BuilderState) (baseUrl : Option String) : BuilderState :=
  addProvider b { name := .ollama, baseUrl := some (strOrD baseUrl (PROVIDER_BASE_URLS .ollama)) }

/-- `ConfigBuilder.build()`: at least one provider, and the default
provider falls back to the first configured one. -/
def build (b : BuilderState) : Except String ClientConfig :=
  match b.providers with
  | [] => .error "At least one provider must be configured"
  | p :: _ =>
    .ok { providers := b.providers
          defaultProvider := b.defaultProvider.getD p.name
          defaultModel := b.defaultModel
          debug := (b.debug.getD false) }

structure CreateConfigOptions where
  geminiKey : Option String := none
  openaiKey : Option String := none
  anthropicKey : Option String := none
  ollamaUrl : Option String := none
  defaultProvider : Option ProviderName := none
deriving DecidableEq, Repr

/-- `createConfig(options)`: truthy keys add their provider;
`ollamaUrl !== undefined` adds Ollama with `ollamaUrl || undefined`. -/
def createConfig (o : CreateConfigOptions) : Except String ClientConfig :=
  let b : BuilderState := {}
  let b := if strTruthy o.geminiKey then addGemini b o.geminiKey else b
  let b := if strTruthy o.openaiKey then addOpenAI b o.openaiKey else b
  let b := if strTruthy o.anthropicKey then addAnthropic b o.anthropicKey else b
  let b := match o.ollamaUrl with
           | some u => addOllama b (if u = "" then none else some u)
           | none => b
  let b := match o.defaultProvider with
           | some p => { b with defaultProvider := some p }
           | none => b
  build b

/-- `validateConfig(config)`: the flat list of human-readable errors. -/
def validateConfig (cfg : ClientConfig) : List String :=
  (if cfg.providers.isEmpty then ["At least one provider must be configured"] else []) ++
    (if cfg.providers.any (fun p => p.name = cfg.defaultProvider) then []
     else ["Default provider '" ++ cfg.defaultProvider.toStr ++ "' is not in the providers list"]) ++
    cfg.providers.filterMap (fun p =>
      if p.name ≠ ProviderName.ollama ∧ ¬ strTruthy p.apiKey then
        some ("API key required for provider '" ++ p.name.toStr ++ "'")
      else none)

/-- Does the vendor adapter's constructor succeed?  Gemini, OpenAI and
Anthropic throw an `AuthenticationError` on a falsy `apiKey`; the local
Ollama adapter never throws. -/
def ctorSucceeds (pc : ProviderConfig) : Bool :=
  match pc.name with
  | .ollama => true
  | _ => strTruthy pc.apiKey

/-- `initializeProviders`: each configured provider whose constructor
succeeds is registered (a throwing constructor is caught and logged). -/
def initializeProviders (cfg : ClientConfig) : List ProviderName :=
  cfg.providers.filterMap (fun pc => if ctorSucceeds pc then some pc.name else none)

structure ClientState where
  registered : List ProviderName
  activeProviderName : ProviderName
deriving DecidableEq, Repr

/-- The `LLMClient` constructor: validate, register providers, and point
the active provider at `config.defaultProvider` (throwing when it was not
registered). -/
def clientInit (cfg : ClientConfig) : Except String ClientState :=
  if validateConfig cfg ≠ [] then
    .error ("Invalid configuration: " ++ String.intercalate ", " (validateConfig cfg))
  else
    let reg := initializeProviders cfg
    if reg.contains cfg.defaultProvider then
      .ok { registered := reg, activeProviderName := cfg.defaultProvider }
    else
      .error ("Default provider '" ++ cfg.defaultProvider.toStr ++ "' not found")

/-- `getActiveProviderName()`. -/
def getActiveProviderName (st : ClientState) : ProviderName :=
  st.activeProviderName

-- ==========================================================
-- AGENT LOOPS (src/sdk/client.ts lines 322-495).  JS arrays
-- are mutable references: the embedding threads an explicit
-- store of arrays so that `let messages = [...request.messages]`
-- (copy) versus aliasing is visible, exactly as in the source.
-- ==========================================================

/-- The mutable-array store: a reference is an index. -/
abbrev Store := List (List Message)

def Store.read (s : Store) (r : Nat) : List Message :=
  (s.get? r).getD []

def Store.alloc (s : Store) (v : List Message) : Store × Nat :=
  (s ++ [v], s.length)

def Store.push (s : Store) (r : Nat) (m : Message) : Store :=
  s.set r (Store.read s r ++ [m])

def Store.pushAll (s : Store) (r : Nat) (ms : List Message) : Store :=
  s.set r (Store.read s r ++ ms)

/-- The mocked `chat` collaborator: the response (or thrown error) as a
function of the message list sent. -/
abbrev Oracle := List Message → Except String ChatResponse

/-- The in-loop tool execution of `runAgentLoop` (lines 362-384): note its
distinct default message `Error: Tool '<name>' not found`. -/
def agentToolResult (tools : List ToolDefinition) (call : ToolCall) : String :=
  match (findTool tools call.name).bind (fun t => t.execute) with
  | none => "Error: Tool '" ++ call.name ++ "' not found"
  | some exec =>
    match exec call.arguments with
    | .ok r => r
    | .error e => "Error: " ++ e

def assistantMessage (content : String) (calls : List ToolCall) : Message :=
  { role := .assistant, content := .str content, toolCalls := some calls }

/-- One `tool`-role message per executed call, in call order. -/
def toolTurnMessages (tools : List ToolDefinition) (calls : List ToolCall) :
    List Message :=
  calls.map (fun call =>
    { role := .tool
      content := .str (agentToolResult tools call)
      toolCallId := some call.id
      name := some call.name })

structure AgentLoopResult where
  result : Except String ChatResponse
  chatCalls : Nat
  store : Store
deriving DecidableEq, Repr

/-- The `while (iterations < maxIterations)` body of `runAgentLoop`,
with `fuel = maxIterations - iterations`. -/
def runAgentLoopAux (oracle : Oracle) (tools : List ToolDefinition) (msgsRef : Nat) :
    Nat → Store → Option ChatResponse → Nat → AgentLoopResult
  | 0, store, last, calls =>
    match last with
    | some r =>
      { result := .ok { r with content := r.content ++ "\n\n[Max iterations reached]" }
        chatCalls := calls
        store := store }
    | none =>
      { result := .error "Agent loop failed to produce a response"
        chatCalls := calls
        store := store }
  | fuel + 1, store, _, calls =>
    match oracle (Store.read store msgsRef) with
    | .error e => { result := .error e, chatCalls := calls + 1, store := store }
    | .ok resp =>
      if resp.toolCalls.isEmpty then
        { result := .ok resp, chatCalls := calls + 1, store := store }
      else
        let store1 := Store.push store msgsRef (assistantMessage resp.content resp.toolCalls)
        let store2 := Store.pushAll store1 msgsRef (toolTurnMessages tools resp.toolCalls)
        runAgentLoopAux oracle tools msgsRef fuel store2 (some resp) (calls + 1)

/-- `LLMClient.runAgentLoop(request, tools, {maxIterations})`: copy the
caller's message array (`[...request.messages]`), then iterate. -/
def runAgentLoop (oracle : Oracle) (tools : List ToolDefinition) (store : Store)
    (reqRef : Nat) (maxIterations : Nat) : AgentLoopResult :=
  let alloc := Store.alloc store (Store.read store reqRef)
  runAgentLoopAux oracle tools alloc.2 maxIterations alloc.1 none 0

-- Streaming agent loop ------------------------------------

/-- The flattened event stream `runAgentLoopStreaming` re-emits. -/
inductive AgentEvent
  | text (content : String)
  | tool_call (toolName : String) (toolArgs : Args)
  | tool_result (toolName : String) (toolRes : String)
  | done
deriving DecidableEq, Repr

/-- The per-chunk guard of lines 434-447: a streamed tool call is recorded
and re-emitted only when `tc.id && tc.name && tc.arguments` is truthy. -/
def streamedToolCall (tc : PartialToolCall) : Option ToolCall :=
  match tc.id, tc.name, tc.arguments with
  | some i, some n, some a => if i ≠ "" ∧ n ≠ "" then some { id := i, name := n, arguments := a } else none
  | _, _, _ => none

/-- Consuming one turn's chunk stream (lines 424-449): accumulate the
text, collect guarded tool calls, and re-emit `text` / `tool_call`
events in stream order. -/
def consumeTurn : List StreamChunk → String × List ToolCall × List AgentEvent
  | [] => ("", [], [])
  | c :: rest =>
    let r := consumeTurn rest
    match c with
    | .text s => if s ≠ "" then (s ++ r.1, r.2.1, .text s :: r.2.2) else r
    | .tool_call tc =>
      match streamedToolCall tc with
      | some call => (r.1, call :: r.2.1, .tool_call call.name call.arguments :: r.2.2)
      | none => r
    | _ => r

/-- The mocked `stream` collaborator for the streaming loop: the chunk
list of one turn as a function of the message list sent. -/
abbrev StreamOracle := List Message → List StreamChunk

structure AgentStreamResult where
  events : List AgentEvent
  store : Store
deriving DecidableEq, Repr

/-- The `while` body of `runAgentLoopStreaming`. -/
def runAgentLoopStreamingAux (oracle : StreamOracle) (tools : List ToolDefinition)
    (msgsRef : Nat) : Nat → Store → List AgentEvent → AgentStreamResult
  | 0, store, acc => { events := acc ++ [.done], store := store }
  | fuel + 1, store, acc =>
    let turn := consumeTurn (oracle (Store.read store msgsRef))
    if turn.2.1.isEmpty then
      { events := acc ++ turn.2.2 ++ [.done], store := store }
    else
      let store1 := Store.push store msgsRef (assistantMessage turn.1 turn.2.1)
      let store2 := Store.pushAll store1 msgsRef (toolTurnMessages tools turn.2.1)
      let resultEvents := turn.2.1.map (fun call =>
        AgentEvent.tool_result call.name (agentToolResult tools call))
      runAgentLoopStreamingAux oracle tools msgsRef fuel store2 (acc ++ turn.2.2 ++ resultEvents)

/-- `LLMClient.runAgentLoopStreaming(request, tools, {maxIterations})`. -/
def runAgentLoopStreaming (oracle : StreamOracle) (tools : List ToolDefinition)
    (store : Store) (reqRef : Nat) (maxIterations : Nat) : AgentStreamResult :=
  let alloc := Store.alloc store (Store.read store reqRef)
  runAgentLoopStreamingAux oracle tools alloc.2 maxIterations alloc.1 []

-- ==========================================================
-- PROVIDER STREAM ADAPTERS.  Each adapter's `stream` method is
-- a pure function from the decoded vendor-event sequence (plus
-- the outcome of the HTTP setup and an optional mid-stream
-- transport failure raised after the listed events) to the
-- emitted chunk list.  Random tool-call ids
-- (`generateToolCallId()`) are modelled as a counter supply.
-- ==========================================================

def generateToolCallId (n : Nat) : String :=
  "call_" ++ toString n

-- ---------- Ollama (src/unnamed/part_008 lines 132-205) ----------

structure OllamaToolCallRec where
  name : String
  arguments : Option Args := none
deriving DecidableEq, Repr

/-- One decoded NDJSON record of `POST /api/chat`. -/
structure OllamaRec where
  content : Option String := none
  toolCalls : Option (List OllamaToolCallRec) := none
  promptEvalCount : Option Nat := none
  evalCount : Option Nat := none
  done : Bool := false
deriving DecidableEq, Repr

inductive OllamaSetup
  | ok
  | httpError (msg : String)
  | fetchThrow (isFetchTypeError : Bool) (msg : String)
deriving DecidableEq, Repr

def ollamaConnectMsg : String :=
  "Cannot connect to Ollama. Is it running?"

def ollamaErrChunk (isFetchType : Bool) (msg : String) : StreamChunk :=
  if isFetchType then .error ollamaConnectMsg else .error msg

/-- The chunks one record contributes before the `done` check: a truthy
`message.content` yields text, and each entry of a present
`message.tool_calls` yields a completed tool call with a generated id. -/
def ollamaRecChunks (nextId : Nat) (r : OllamaRec) : List StreamChunk :=
  (if strTruthy r.content then [.text (r.content.getD "")] else []) ++
    (r.toolCalls.getD []).enum.map (fun p =>
      StreamChunk.tool_call
        { id := some (generateToolCallId (nextId + p.1))
          name := some p.2.name
          arguments := some (p.2.arguments.getD []) })

/-- The `for await (const data of parseNDJSON(response))` body: token
counters update on truthy counts; a `done` record emits the usage snapshot
and the terminal `done` and returns; a source exhausted without `done`
falls out of the loop (emitting nothing), and a mid-stream exception is
caught into one `error` chunk. -/
def ollamaLoop (nextId promptTokens totalTokens : Nat)
    (midErr : Option (Bool × String)) : List OllamaRec → List StreamChunk
  | [] =>
    match midErr with
    | some e => [ollamaErrChunk e.1 e.2]
    | none => []
  | r :: rest =>
    let prompt1 := match r.promptEvalCount with
                   | some n => if n ≠ 0 then n else promptTokens
                   | none => promptTokens
    let total1 := match r.evalCount with
                  | some n => if n ≠ 0 then n else totalTokens
                  | none => totalTokens
    ollamaRecChunks nextId r ++
      (if r.done then
        [.usage { promptTokens := prompt1
                  completionTokens := total1
                  totalTokens := prompt1 + total1 }, .done]
      else
        ollamaLoop (nextId + (r.toolCalls.getD []).length) prompt1 total1 midErr rest)

/-- `OllamaProvider.stream(request)`. -/
def ollamaStream (setup : OllamaSetup) (recs : List OllamaRec)
    (midErr : Option (Bool × String)) : List StreamChunk :=
  match setup with
  | .httpError m => [.error m]
  | .fetchThrow ft m => [ollamaErrChunk ft m]
  | .ok => ollamaLoop 0 0 0 midErr recs

-- ---------- OpenAI (src/sdk/providers/openai.ts lines 132-223) ----------

/-- One element of a `delta.tool_calls` array: positional index plus the
optional id / function-name / argument-fragment fields. -/
structure OAIToolCallDelta where
  index : Nat
  id : Option String := none
  name : Option String := none
  argumentsFragment : Option String := none
deriving DecidableEq, Repr

/-- One decoded SSE record of `POST /chat/completions`. -/
structure OAIEvent where
  content : Option String := none
  toolCallDeltas : Option (List OAIToolCallDelta) := none
  usage : Option TokenUsage := none
deriving DecidableEq, Repr

inductive OAISetup
  | ok
  | httpError (msg : String)
  | fetchThrow (msg : String)
deriving DecidableEq, Repr

/-- Applying one tool-call delta to its buffer: truthy `id` and
`function.name` overwrite; a truthy `function.arguments` fragment is
JSON-parsed on its own and, only when that parse succeeds, spread-merged
onto the accumulated arguments (a failing parse leaves the buffer
untouched). -/
def oaiUpdateBuffer (buf : PartialToolCall) (d : OAIToolCallDelta) : PartialToolCall :=
  let b1 := if strTruthy d.id then { buf with id := d.id } else buf
  let b2 := if strTruthy d.name then { b1 with name := d.name } else b1
  if strTruthy d.argumentsFragment then
    match jsonParseObj (d.argumentsFragment.getD "") with
    | some parsed => { b2 with arguments := some (spreadMerge (b2.arguments.getD []) parsed) }
    | none => b2
  else b2

def oaiApplyEvent (bufs : List (Nat × PartialToolCall)) (e : OAIEvent) :
    List (Nat × PartialToolCall) :=
  match e.toolCallDeltas with
  | none => bufs
  | some ds =>
    ds.foldl (fun bs d => assocSet bs d.index (oaiUpdateBuffer ((assocGet bs d.index).getD {}) d)) bufs

def oaiUpdateUsage (u : Option TokenUsage) (e : OAIEvent) : Option TokenUsage :=
  match e.usage with
  | some v => some v
  | none => u

/-- After the SSE source ends: emit each buffered call that has a truthy
id and name (arguments defaulting to `{}`), then the usage snapshot when
one arrived, then `done`. -/
def oaiEmitToolCalls (bufs : List (Nat × PartialToolCall)) : List StreamChunk :=
  bufs.filterMap (fun kv =>
    match kv.2.id, kv.2.name with
    | some i, some n =>
      if i ≠ "" ∧ n ≠ "" then
        some (.tool_call { id := some i, name := some n, arguments := some (kv.2.arguments.getD []) })
      else none
    | _, _ => none)

def oaiLoop (midErr : Option String) :
    List OAIEvent → List (Nat × PartialToolCall) → Option TokenUsage → List StreamChunk
  | [], bufs, usage =>
    match midErr with
    | some m => [.error m]
    | none =>
      oaiEmitToolCalls bufs ++
        (match usage with | some u => [.usage u] | none => []) ++ [.done]
  | e :: rest, bufs, usage =>
    (if strTruthy e.content then [.text (e.content.getD "")] else []) ++
      oaiLoop midErr rest (oaiApplyEvent bufs e) (oaiUpdateUsage usage e)

/-- `OpenAIProvider.stream(request)`. -/
def openaiStream (setup : OAISetup) (events : List OAIEvent)
    (midErr : Option String) : List StreamChunk :=
  match setup with
  | .httpError m => [.error m]
  | .fetchThrow m => [.error m]
  | .ok => oaiLoop midErr events [] none

-- ---------- Anthropic (src/sdk/providers/anthropic.ts lines 121-230) ----------

/-- One decoded SSE event of `POST /messages`; usage numbers carry the
`|| 0` already applied. -/
inductive AnthEvent
  | message_start (inputTokens : Option Nat)
  | content_block_start_tool (id : String) (name : String)
  | content_block_start_other
  | text_delta (s : String)
  | input_json_delta (partialJson : String)
  | thinking_delta (s : String)
  | content_block_stop
  | message_delta (outputTokens : Option Nat)
  | message_stop
deriving DecidableEq, Repr

structure AnthState where
  current : Option PartialToolCall := none
  buffer : String := ""
  usage : TokenUsage := { promptTokens := 0, completionTokens := 0, totalTokens := 0 }
deriving DecidableEq, Repr

/-- One arm of the `switch (eventType)`: `input_json_delta` fragments are
buffered as raw text and parsed only at `content_block_stop` (an
unparseable buffer degrades to `{}`); `message_stop` emits the usage
snapshot and `done` but does not leave the loop. -/
def anthStep (st : AnthState) (e : AnthEvent) : AnthState × List StreamChunk :=
  match e with
  | .message_start tk =>
    ({ st with usage := match tk with
                        | some n => { st.usage with promptTokens := n }
                        | none => st.usage }, [])
  | .content_block_start_tool i n =>
    ({ st with current := some { id := some i, name := some n, arguments := some [] }
               buffer := "" }, [])
  | .content_block_start_other => (st, [])
  | .text_delta s => (st, [.text s])
  | .input_json_delta s =>
    match st.current with
    | some _ => ({ st with buffer := st.buffer ++ s }, [])
    | none => (st, [])
  | .thinking_delta s => (st, [.thinking s])
  | .content_block_stop =>
    match st.current with
    | some tc =>
      if st.buffer ≠ "" then
        let args := (jsonParseObj st.buffer).getD []
        ({ st with current := none, buffer := "" },
          [.tool_call { tc with arguments := some args }])
      else (st, [])
    | none => (st, [])
  | .message_delta tk =>
    ({ st with usage := match tk with
                        | some n => { st.usage with completionTokens := n
                                                    totalTokens := st.usage.promptTokens + n }
                        | none => st.usage }, [])
  | .message_stop => (st, [.usage st.usage, .done])

def anthLoop (midErr : Option String) : List AnthEvent → AnthState → List StreamChunk
  | [], _ =>
    match midErr with
    | some m => [.error m]
    | none => []
  | e :: rest, st =>
    let step := anthStep st e
    step.2 ++ anthLoop midErr rest step.1

inductive AnthSetup
  | ok
  | httpError (msg : String)
  | fetchThrow (msg : String)
deriving DecidableEq, Repr

/-- `AnthropicProvider.stream(request)`. -/
def anthropicStream (setup : AnthSetup) (events : List AnthEvent)
    (midErr : Option String) : List StreamChunk :=
  match setup with
  | .httpError m => [.error m]
  | .fetchThrow m => [.error m]
  | .ok => anthLoop midErr events {}

-- ---------- Gemini (src/unnamed/part_009 lines 111-174, 390-425) ----------

structure GemFunctionCall where
  name : String
  args : Option Args := none
deriving DecidableEq, Repr

structure GemPart where
  text : Option String := none
  functionCall : Option GemFunctionCall := none
  thought : Option String := none
deriving DecidableEq, Repr

/-- One decoded SSE record of `:streamGenerateContent`; usage metadata
numbers carry the `|| 0` already applied. -/
structure GemRec where
  parts : List GemPart := []
  usageMetadata : Option TokenUsage := none
deriving DecidableEq, Repr

def gemPartChunks (nextId : Nat) (p : GemPart) : List StreamChunk :=
  (if strTruthy p.text then [.text (p.text.getD "")] else []) ++
    (match p.functionCall with
     | some fc =>
       [.tool_call { id := some (generateToolCallId nextId)
                     name := some fc.name
                     arguments := some (fc.args.getD []) }]
     | none => []) ++
    (if strTruthy p.thought then [.thinking (p.thought.getD "")] else [])

def gemPartsChunks (nextId : Nat) : List GemPart → List StreamChunk
  | [] => []
  | p :: ps =>
    gemPartChunks nextId p ++
      gemPartsChunks (nextId + (if p.functionCall.isSome then 1 else 0)) ps

def gemPartsIds : List GemPart → Nat
  | [] => 0
  | p :: ps => (if p.functionCall.isSome then 1 else 0) + gemPartsIds ps

def gemLoop (midErr : Option String) : List GemRec → Nat → TokenUsage → List StreamChunk
  | [], _, usage =>
    match midErr with
    | some m => [.error m]
    | none => [.usage usage, .done]
  | r :: rest, nextId, usage =>
    gemPartsChunks nextId r.parts ++
      gemLoop midErr rest (nextId + gemPartsIds r.parts) (r.usageMetadata.getD usage)

inductive GemSetup
  | ok
  | httpError (msg : String)
  | noBody
  | fetchThrow (msg : String)
deriving DecidableEq, Repr

/-- `GeminiProvider.stream(request)`. -/
def geminiStream (setup : GemSetup) (recs : List GemRec)
    (midErr : Option String) : List StreamChunk :=
  match setup with
  | .httpError m => [.error m]
  | .noBody => [.error "No response body"]
  | .fetchThrow m => [.error m]
  | .ok => gemLoop midErr recs 0 { promptTokens := 0, completionTokens := 0, totalTokens := 0 }

-- ==========================================================
-- CONCRETE FIXTURES used by witness theorems
-- ==========================================================

/-- A tool advertised without an `execute` function. -/
def wToolNoExec : ToolDefinition :=
  { name := "lookup"
    description := "Advertised only"
    parameters := .obj [("type", .str "object")] }

/-- A tool whose executor throws. -/
def wToolThrow : ToolDefinition :=
  { name := "boom"
    description := "Always throws"
    parameters := .obj [("type", .str "object")]
    execute := some (fun _ => .error "boom failed") }

/-- A healthy weather tool. -/
def wToolWeather : ToolDefinition :=
  { name := "get_weather"
    description := "Get weather"
    parameters := .obj [("type", .str "object")]
    execute := some (fun args =>
      .ok ("Weather in " ++ ((argsLookup args "location").getD "?") ++ ": Sunny")) }

def wTools : List ToolDefinition := [wToolNoExec, wToolThrow, wToolWeather]

def wUsage0 : TokenUsage := { promptTokens := 0, completionTokens := 0, totalTokens := 0 }

/-- A response carrying one call to each fixture tool. -/
def wResponse : ChatResponse :=
  { id := "r1"
    model := "llama3.2"
    content := "OK"
    toolCalls :=
      [ { id := "t1", name := "lookup", arguments := [] }
      , { id := "t2", name := "boom", arguments := [] }
      , { id := "t3", name := "get_weather", arguments := [("location", "Tokyo")] } ]
    usage := wUsage0
    finishReason := .tool_calls
    provider := .ollama }

/-- The user request of the chat-pipeline witness: two words of content
(estimate 3 tokens) and an explicit `maxTokens` of 42. -/
def wChatReq : ChatRequest :=
  { messages := [{ role := .user, content := .str "hello world" }]
    maxTokens := some 42 }

def wEnvOk : ChatEnv :=
  { limiter := some (.ok ())
    breakerK := 5
    breakerT := 60000
    breaker := .init
    now := 0
    adapter := .ok wResponse }

def wEnvLimThrow : ChatEnv :=
  { wEnvOk with limiter := some (.error "Rate limiter reset") }

/-- Did `limiter.acquire` throw? -/
def limiterThrew (env : ChatEnv) : Bool :=
  match env.limiter with
  | some (.error _) => true
  | _ => false

/-- The breaker decision the chat call runs through. -/
def breakerOutcome (env : ChatEnv) : CBOutcome :=
  cbExecute env.breakerK env.breakerT env.breaker env.now (isOkE env.adapter)

/-- A response that always requests one more tool call. -/
def wRespTools : ChatResponse :=
  { wResponse with content := "thinking", toolCalls := [{ id := "t9", name := "boom", arguments := [] }] }

/-- A mocked `chat` that requests a tool call on every turn. -/
def wOracleTools : Oracle := fun _ => .ok wRespTools

/-- A one-array store holding the caller's request messages. -/
def wStore : Store := [[{ role := .user, content := .str "hi" }]]

/-- A mocked one-turn stream: text, then a completed tool call. -/
def wStreamOracle : StreamOracle := fun _ =>
  [ .text "hello"
  , .tool_call { id := some "s1", name := some "get_weather", arguments := some [("location", "Tokyo")] }
  , .done ]

/-- The property that the mocked chat returns tool calls on every turn
(the cap-reaching scenario of the agent loop). -/
def oracleAlwaysToolCalls (oracle : Oracle) : Prop :=
  ∀ ms, ∃ r, oracle ms = .ok r ∧ r.toolCalls ≠ []

-- ==========================================================
-- CLAIM-SHAPED PREDICATES (statements under test, written
-- from the claims' wording, to be compared with the source
-- embeddings above)
-- ==========================================================

/-- The disputed reading of claim C3: once `resetTimeoutMs` milliseconds
have elapsed since the last failure (`T ≤ elapsed`), an open breaker lets
the next call run as the half-open trial. -/
def cbClaimTrialAtElapsedT : Prop :=
  ∀ (K T : Nat) (st : CBState) (now : Nat) (fnSucceeds : Bool),
    st.state = CBMode.«open» → T ≤ now - st.lastFailure →
    (cbExecute K T st now fnSucceeds).invoked = true

/-- The claimed rate-limit cost of C1: the token estimate derived from
the serialized request size (`BaseProvider.estimateRequestTokens`). -/
def chatCostFromRequestSize : Prop :=
  ∀ (req : ChatRequest) (env : ChatEnv), env.limiter.isSome = true →
    ChatEvent.limiterAcquire (some (estimateRequestTokens req)) ∈ (clientChat req env).trace

/-- Is the chunk a terminal `done`/`error` chunk? -/
def isTerminalChunk : StreamChunk → Bool
  | .done => true
  | .error _ => true
  | _ => false

/-- Claim C4's shape of a stream: a possibly-empty run of payload chunks
terminated by exactly one `done` or `error`. -/
def wellTerminated (cs : List StreamChunk) : Bool :=
  match cs.getLast? with
  | some c => isTerminalChunk c && cs.dropLast.all (fun x => !isTerminalChunk x)
  | none => false

/-- Claim C4 as stated, at the Ollama adapter: every vendor input yields
a chunk sequence terminated by exactly one `done` or `error`. -/
def ollamaAlwaysTerminatedClaim : Prop :=
  ∀ (setup : OllamaSetup) (recs : List OllamaRec) (midErr : Option (Bool × String)),
    wellTerminated (ollamaStream setup recs midErr) = true

/-- An OpenAI SSE event carrying one argument fragment for the tool call
at positional index 0. -/
def mkFragEvent (f : String) : OAIEvent :=
  { toolCallDeltas := some [{ index := 0, argumentsFragment := some f }] }

/-- The OpenAI event sequence delivering one tool call whose id and name
arrive on the first fragment and whose arguments are split across the
given fragments. -/
def oaiFragEvents (i n : String) : List String → List OAIEvent
  | [] => []
  | f :: fs =>
    ({ toolCallDeltas :=
        some [{ index := 0, id := some i, name := some n, argumentsFragment := some f }] }
      : OAIEvent) :: fs.map mkFragEvent

/-- Claim C5 as stated, at the OpenAI adapter: however one call's
argument text is fragmented, the adapter emits exactly one completed
`tool_call` chunk whose arguments equal the parse of the fully merged
text. -/
def openaiMergesSplitFragmentsClaim : Prop :=
  ∀ (i n : String) (frags : List String) (args : Args),
    frags ≠ [] → i ≠ "" → n ≠ "" →
    jsonParseObj (String.join frags) = some args →
    openaiStream .ok (oaiFragEvents i n frags) none =
      [.tool_call { id := some i, name := some n, arguments := some args }, .done]

/-- The per-fragment argument accumulation the OpenAI source actually
performs: parse each fragment alone, spread-merging the successes. -/
def oaiFoldFrags (frags : List String) : Args :=
  frags.foldl (fun acc f => spreadMerge acc ((jsonParseObj f).getD [])) []

/-- Concatenation of the streamed argument fragments (the text Anthropic
buffers in `inputJsonBuffer`). -/
def concatFrags : List String → String
  | [] => ""
  | f :: fs => f ++ concatFrags fs

/-- The OpenAI tool-call buffer after a run of argument-only fragments,
each individually parseable. -/
def oaiFoldBuf (fs : List String) (buf : PartialToolCall) : PartialToolCall :=
  fs.foldl
    (fun b f =>
      { b with arguments := some (spreadMerge (b.arguments.getD []) ((jsonParseObj f).getD [])) })
    buf

-- ==========================================================
-- ==========================================================
-- THEOREMS
-- ==========================================================
-- ==========================================================

-- ---------- C3: circuit breaker state machine ----------

/-- With `f` accumulated failures and a closed breaker, a run of failing
calls that brings the count exactly to the threshold leaves the breaker
open, whatever the call times. -/
theorem cbFailMany_opens (K T : Nat) :
    ∀ (ts : List Nat) (f t : Nat), f + ts.length = K → 1 ≤ ts.length →
      (cbFailMany K T { failures := f, lastFailure := t, state := .closed } ts).state =
        CBMode.«open» := by
  intro ts
  induction ts with
  | nil => intro f t _ h; simp at h
  | cons t0 ts' ih =>
    intro f t hlen _
    simp only [cbFailMany, cbExecute, cbOnFailure]
    by_cases hK : f + 1 ≥ K
    · have hK' : f + 1 = K := by simp at hlen; omega
      have hts' : ts' = [] := by
        have : ts'.length = 0 := by simp at hlen; omega
        exact List.length_eq_zero.mp this
      subst hts'
      simp [cbFailMany, hK]
    · have hlen' : (f + 1) + ts'.length = K := by simp at hlen; omega
      have hts' : 1 ≤ ts'.length := by omega
      have := ih (f + 1) t0 hlen' hts'
      simpa [hK] using this

/-- C3 counterexample: with threshold 1 and reset timeout 5, a breaker
that opened at time 10 still rejects without invoking the wrapped
function at time 15 — exactly 5 ms after the failure — because the source
requires strictly more than `resetTimeoutMs` to elapse
(`now - lastFailure > resetTimeoutMs`). -/
theorem c3_counterexample : ¬ cbClaimTrialAtElapsedT := by
  intro h
  have h15 := h 1 5 { failures := 1, lastFailure := 10, state := .«open» } 15 true rfl
    (by norm_num)
  exact absurd h15 (by decide)

/-- C3 (amended): for a breaker with threshold K ≥ 1 and reset timeout T:
K consecutive failures with no intervening success open the breaker;
while open, a call made at most T ms after the last failure is rejected
without invoking the wrapped function; a call made strictly more than
T ms after the last failure runs as the single half-open trial — its
success resets the failure counter and closes the breaker, its failure
re-opens the breaker and restarts the timeout from the new failure
time. -/
theorem c3_breaker_amended (K T : Nat) (hK : 1 ≤ K) :
    (∀ ts : List Nat, ts.length = K →
      (cbFailMany K T CBState.init ts).state = CBMode.«open») ∧
    (∀ (st : CBState) (now : Nat) (fnSucceeds : Bool),
      st.state = CBMode.«open» → now - st.lastFailure ≤ T →
      cbExecute K T st now fnSucceeds =
        { invoked := false, rejectedOpen := true, succeeded := false, state := st }) ∧
    (∀ (st : CBState) (now : Nat),
      st.state = CBMode.«open» → T < now - st.lastFailure →
      cbExecute K T st now true =
        { invoked := true, rejectedOpen := false, succeeded := true,
          state := { failures := 0, lastFailure := st.lastFailure, state := .closed } }) ∧
    (∀ (st : CBState) (now : Nat),
      st.state = CBMode.«open» → T < now - st.lastFailure → K ≤ st.failures →
      cbExecute K T st now false =
        { invoked := true, rejectedOpen := false, succeeded := false,
          state := { failures := st.failures + 1, lastFailure := now, state := .«open» } }) := by
  refine ⟨?_, ?_, ?_, ?_⟩
  · intro ts hlen
    exact cbFailMany_opens K T ts 0 0 (by omega) (by omega)
  · intro st now fnS hOpen hElapsed
    have hno : ¬ (now - st.lastFailure > T) := by omega
    cases fnS <;> simp [cbExecute, hOpen, hno]
  · intro st now hOpen hElapsed
    simp [cbExecute, hOpen, hElapsed, cbOnSuccess]
  · intro st now hOpen hElapsed hF
    have : st.failures + 1 ≥ K := by omega
    simp [cbExecute, hOpen, hElapsed, cbOnFailure, this]

/-- C3 witness: the amended theorem evaluated for a breaker with
threshold 2 and timeout 5: two failures (at times 10 and 20) open it, a
call at time 25 is rejected without running, a call at time 26 succeeds
as the half-open trial and closes it, and a failing trial at time 26
re-opens it with the timeout restarted at 26. -/
theorem c3_witness :
    (cbFailMany 2 5 CBState.init [10, 20]).state = CBMode.«open» ∧
    cbExecute 2 5 { failures := 2, lastFailure := 20, state := .«open» } 25 true =
      { invoked := false, rejectedOpen := true, succeeded := false,
        state := { failures := 2, lastFailure := 20, state := .«open» } } ∧
    cbExecute 2 5 { failures := 2, lastFailure := 20, state := .«open» } 26 true =
      { invoked := true, rejectedOpen := false, succeeded := true,
        state := { failures := 0, lastFailure := 20, state := .closed } } ∧
    cbExecute 2 5 { failures := 2, lastFailure := 20, state := .«open» } 26 false =
      { invoked := true, rejectedOpen := false, succeeded := false,
        state := { failures := 3, lastFailure := 26, state := .«open» } } := by
  obtain ⟨ha, hb, hc, hd⟩ := c3_breaker_amended 2 5 (by decide)
  exact ⟨ha [10, 20] rfl,
    hb { failures := 2, lastFailure := 20, state := .«open» } 25 true rfl (by decide),
    hc { failures := 2, lastFailure := 20, state := .«open» } 26 rfl (by decide),
    hd { failures := 2, lastFailure := 20, state := .«open» } 26 rfl (by decide) (by decide)⟩

-- ---------- C6: sliding window rate limiter ----------

/-- A run of `acquire()` calls that stays below capacity and inside one
window neither prunes nor sleeps: it just records the call times. -/
theorem swAcquireMany_in_window (N : Nat) (w : Int) :
    ∀ (ts st : List Int), st.length + ts.length ≤ N →
      List.Pairwise (· ≤ ·) (st ++ ts) →
      (∀ a ∈ st ++ ts, ∀ b ∈ st ++ ts, b - w < a) →
      swAcquireMany N w st ts = st ++ ts := by
  intro ts
  induction ts with
  | nil => intro st _ _ _; simp [swAcquireMany]
  | cons t0 ts' ih =>
    intro st hlen hsort hwin
    have ht0 : t0 ∈ st ++ t0 :: ts' := by simp
    have hclean : swCleanup w t0 st = st := by
      apply List.filter_eq_self.mpr
      intro s hs
      have : t0 - w < s := hwin s (by simp [hs]) t0 ht0
      simpa using this
    have hcap : ¬ (N ≤ st.length) := by simp at hlen; omega
    have hstep : swAcquire N w st t0 =
        { state := st ++ [t0], sleptMs := 0, resumeTime := t0 } := by
      simp [swAcquire, hclean, hcap]
    have hassoc : st ++ t0 :: ts' = (st ++ [t0]) ++ ts' := by simp
    have hrec := ih (st ++ [t0]) (by simp at hlen ⊢; omega)
      (by rw [hassoc] at hsort; exact hsort)
      (by rw [hassoc] at hwin; exact hwin)
    calc swAcquireMany N w st (t0 :: ts')
        = swAcquireMany N w (st ++ [t0]) ts' := by
          simp [swAcquireMany, hstep]
      _ = (st ++ [t0]) ++ ts' := hrec
      _ = st ++ t0 :: ts' := by simp

/-- C6: the sliding-window limiter (window `w` > 0 ms): (1) every
timestamp surviving an `acquire` lies inside the window ending at the
time the call proceeds; (2) starting empty, N `acquire()` calls within
one window record exactly their call times without sleeping, after which
`getRemainingRequests()` is 0; (3) a further `acquire()` at capacity
suspends for exactly the time until the oldest recorded timestamp exits
the window, proceeding at that instant. -/
theorem c6_sliding_window (N : Nat) (w : Int) (hw : 0 < w) :
    (∀ (st : List Int) (now t : Int), t ∈ (swAcquire N w st now).state →
      (swAcquire N w st now).resumeTime - w < t) ∧
    (∀ ts : List Int, ts.length = N → List.Pairwise (· ≤ ·) ts →
      (∀ a ∈ ts, ∀ b ∈ ts, b - w < a) →
      swAcquireMany N w [] ts = ts) ∧
    (∀ (ts : List Int) (now : Int), (∀ t ∈ ts, now - w < t) → ts.length = N →
      getRemainingRequests N w now ts = 0) ∧
    (∀ (t1 : Int) (rest : List Int) (now : Int),
      (t1 :: rest).length = N → (∀ t ∈ t1 :: rest, now - w < t) →
      (swAcquire N w (t1 :: rest) now).sleptMs = t1 + w - now ∧
      (swAcquire N w (t1 :: rest) now).resumeTime = t1 + w) := by
  refine ⟨?_, ?_, ?_, ?_⟩
  · intro st now t hmem
    by_cases hcap : N ≤ (swCleanup w now st).length
    · rcases hhead : (swCleanup w now st).head? with _ | oldest
      · simp only [swAcquire, if_pos hcap, hhead] at hmem ⊢
        rcases List.mem_append.mp hmem with h | h
        · have := (List.mem_filter.mp h).2
          simpa using this
        · simp at h; omega
      · by_cases hwait : (0 : Int) < oldest + w - now
        · simp only [swAcquire, if_pos hcap, hhead, if_pos hwait] at hmem ⊢
          rcases List.mem_append.mp hmem with h | h
          · have := (List.mem_filter.mp h).2
            simpa using this
          · simp at h; omega
        · simp only [swAcquire, if_pos hcap, hhead, if_neg hwait] at hmem ⊢
          rcases List.mem_append.mp hmem with h | h
          · have := (List.mem_filter.mp h).2
            simpa using this
          · simp at h; omega
    · simp only [swAcquire, if_neg hcap] at hmem ⊢
      rcases List.mem_append.mp hmem with h | h
      · have := (List.mem_filter.mp h).2
        simpa using this
      · simp at h; omega
  · intro ts hlen hsort hwin
    have := swAcquireMany_in_window N w ts [] (by simp [hlen]) (by simpa using hsort)
      (by simpa using hwin)
    simpa using this
  · intro ts now hin hlen
    have hclean : swCleanup w now ts = ts := by
      apply List.filter_eq_self.mpr
      intro s hs
      simpa using hin s hs
    simp [getRemainingRequests, hclean, hlen]
  · intro t1 rest now hlen hin
    have hclean : swCleanup w now (t1 :: rest) = t1 :: rest := by
      apply List.filter_eq_self.mpr
      intro s hs
      simpa using hin s hs
    have hcap : N ≤ (swCleanup w now (t1 :: rest)).length := by
      rw [hclean]; omega
    have hwait : (0 : Int) < t1 + w - now := by
      have := hin t1 (by simp)
      omega
    have hcap2 : N ≤ rest.length + 1 := by simp at hlen; omega
    constructor <;> simp [swAcquire, hclean, hcap, hwait, hcap2]

/-- C6 witness: capacity 2, 60000 ms window: acquires at times 1000 and
2000 record both timestamps; at time 3000 the remaining-request count is
0 and a further acquire sleeps exactly 58000 ms, resuming at 61000 when
the oldest timestamp (1000) exits the window. -/
theorem c6_witness :
    swAcquireMany 2 60000 [] [1000, 2000] = [1000, 2000] ∧
    getRemainingRequests 2 60000 3000 [1000, 2000] = 0 ∧
    (swAcquire 2 60000 [1000, 2000] 3000).sleptMs = 58000 ∧
    (swAcquire 2 60000 [1000, 2000] 3000).resumeTime = 61000 := by
  obtain ⟨_, h2, h3, h4⟩ := c6_sliding_window 2 60000 (by norm_num)
  have hmany := h2 [1000, 2000] rfl (by decide) (by decide)
  have hrem := h3 [1000, 2000] 3000 (by decide) rfl
  have hfull := h4 1000 [2000] 3000 rfl (by decide)
  exact ⟨hmany, hrem, by rw [hfull.1]; norm_num, by rw [hfull.2]; norm_num⟩

-- ---------- C7: executeTools ----------

theorem executeToolCall_id (tools : List ToolDefinition) (call : ToolCall) :
    (executeToolCall tools call).toolCallId = call.id := by
  unfold executeToolCall
  rcases hb : (findTool tools call.name).bind (fun t => t.execute) with _ | exec
  · rfl
  · rcases hx : exec call.arguments with e | r <;> simp [hx]

theorem executeToolsLoop_eq_map (tools : List ToolDefinition) :
    ∀ calls : List ToolCall, executeToolsLoop tools calls = calls.map (executeToolCall tools) := by
  intro calls
  induction calls with
  | nil => rfl
  | cons c cs ih => simp [executeToolsLoop, ih]

/-- C7: `executeTools` yields one result per tool call, in call order and
keyed by the call's id (the per-call function of the map depends only on
that call, so one failing tool cannot affect the others); a call whose
tool is missing or lacks an executor yields an `isError` result whose
message contains the tool's name; a throwing executor is caught for that
call alone and converted into an `isError` result. -/
theorem c7_executeTools (response : ChatResponse) (tools : List ToolDefinition) :
    (executeTools response tools = response.toolCalls.map (executeToolCall tools)) ∧
    ((executeTools response tools).map (fun r => r.toolCallId) =
      response.toolCalls.map (fun c => c.id)) ∧
    (∀ call : ToolCall, (findTool tools call.name).bind (fun t => t.execute) = none →
      executeToolCall tools call =
        { toolCallId := call.id
          result := "Error: Tool '" ++ call.name ++ "' not found or has no executor"
          isError := true } ∧
      ∃ pre post, (executeToolCall tools call).result.data =
        pre ++ call.name.data ++ post) ∧
    (∀ (call : ToolCall) (exec : Args → Except String String) (e : String),
      (findTool tools call.name).bind (fun t => t.execute) = some exec →
      exec call.arguments = .error e →
      executeToolCall tools call =
        { toolCallId := call.id, result := "Error: " ++ e, isError := true }) ∧
    (∀ (call : ToolCall) (exec : Args → Except String String) (r : String),
      (findTool tools call.name).bind (fun t => t.execute) = some exec →
      exec call.arguments = .ok r →
      executeToolCall tools call =
        { toolCallId := call.id, result := r, isError := false }) := by
  refine ⟨?_, ?_, ?_, ?_, ?_⟩
  · rcases h : response.toolCalls with _ | ⟨c, cs⟩
    · simp [executeTools, h]
    · simp [executeTools, h, executeToolsLoop_eq_map]
  · rcases h : response.toolCalls with _ | ⟨c, cs⟩
    · simp [executeTools, h]
    · simp [executeTools, h, executeToolsLoop_eq_map, executeToolCall_id]
  · intro call hnone
    refine ⟨by simp [executeToolCall, hnone], ?_⟩
    refine ⟨("Error: Tool '" : String).data, ("' not found or has no executor" : String).data, ?_⟩
    simp [executeToolCall, hnone]
  · intro call exec e hsome herr
    simp [executeToolCall, hsome, herr]
  · intro call exec r hsome hok
    simp [executeToolCall, hsome, hok]

/-- C7 witness: the three-call fixture — a tool without an executor, a
throwing tool and a healthy tool — produces exactly one result per call
in order: an `isError` result naming `lookup`, an `isError` result with
the thrown message, and the successful weather report. -/
theorem c7_witness :
    executeTools wResponse wTools =
      [ { toolCallId := "t1"
          result := "Error: Tool 'lookup' not found or has no executor"
          isError := true }
      , { toolCallId := "t2", result := "Error: boom failed", isError := true }
      , { toolCallId := "t3", result := "Weather in Tokyo: Sunny", isError := false } ] ∧
    executeToolCall wTools { id := "t1", name := "lookup", arguments := [] } =
      { toolCallId := "t1"
        result := "Error: Tool 'lookup' not found or has no executor"
        isError := true } := by
  obtain ⟨h1, _, h3, _, _⟩ := c7_executeTools wResponse wTools
  constructor
  · rw [h1]; rfl
  · exact (h3 { id := "t1", name := "lookup", arguments := [] } (by rfl)).1

-- ---------- C1: chat pipeline ----------

/-- C1 counterexample: for a request whose serialized-size estimate is 3
tokens but whose `maxTokens` is 42, the gateway acquires the provider
limiter with cost 42 (`limiter.acquire(request.maxTokens)`), not with the
size-derived estimate — no `limiterAcquire 3` event appears in the
trace. -/
theorem c1_counterexample : ¬ chatCostFromRequestSize := by
  intro h
  have hmem := h wChatReq wEnvOk rfl
  have hest : estimateRequestTokens wChatReq = 3 := by decide
  rw [hest] at hmem
  exact absurd hmem (by decide)

/-- C1 (amended): every `chat` / `chatWith` call acquires the global
concurrency slot first and releases it last on every exit path (limiter
throw, breaker rejection, adapter error or success alike, with exactly
one release); when a rate limiter is registered for the provider it is
acquired exactly once, with the request's `maxTokens` as the estimated
token cost, and no limiter is touched otherwise; the adapter runs inside
the provider's circuit breaker — it is invoked exactly when the limiter
admitted the call and the breaker let it through. -/
theorem c1_chat_pipeline (req : ChatRequest) (env : ChatEnv) :
    ((clientChat req env).trace =
      [ChatEvent.acquireSlot] ++
        (match env.limiter with
         | none => []
         | some _ => [ChatEvent.limiterAcquire req.maxTokens]) ++
        (if limiterThrew env then []
         else if (breakerOutcome env).invoked then [ChatEvent.adapterCall] else []) ++
        [ChatEvent.releaseSlot]) ∧
    ((clientChat req env).trace.head? = some .acquireSlot) ∧
    ((clientChat req env).trace.getLast? = some .releaseSlot) ∧
    ((clientChat req env).trace.count .releaseSlot = 1) ∧
    (env.limiter.isSome = true →
      (clientChat req env).trace.count (.limiterAcquire req.maxTokens) = 1) ∧
    (env.limiter = none → ∀ c, ChatEvent.limiterAcquire c ∉ (clientChat req env).trace) ∧
    (ChatEvent.adapterCall ∈ (clientChat req env).trace ↔
      limiterThrew env = false ∧ (breakerOutcome env).invoked = true) := by
  have htrace : (clientChat req env).trace =
      [ChatEvent.acquireSlot] ++
        (match env.limiter with
         | none => []
         | some _ => [ChatEvent.limiterAcquire req.maxTokens]) ++
        (if limiterThrew env then []
         else if (breakerOutcome env).invoked then [ChatEvent.adapterCall] else []) ++
        [ChatEvent.releaseSlot] := by
    rcases hl : env.limiter with _ | out
    · by_cases hb :
        (cbExecute env.breakerK env.breakerT env.breaker env.now (isOkE env.adapter)).invoked = true
      · simp [clientChat, clientChatCore, hl, limiterThrew, breakerOutcome, hb]
      · simp [clientChat, clientChatCore, hl, limiterThrew, breakerOutcome, hb]
    · rcases out with e | u
      · simp [clientChat, clientChatCore, hl, limiterThrew, breakerOutcome]
      · by_cases hb :
          (cbExecute env.breakerK env.breakerT env.breaker env.now (isOkE env.adapter)).invoked = true
        · simp [clientChat, clientChatCore, hl, limiterThrew, breakerOutcome, hb]
        · simp [clientChat, clientChatCore, hl, limiterThrew, breakerOutcome, hb]
  refine ⟨htrace, ?_, ?_, ?_, ?_, ?_, ?_⟩
  · rw [htrace]; rfl
  · rw [htrace]
    exact List.getLast?_concat _
  · rw [htrace]
    rcases hl : env.limiter <;>
      by_cases ht : limiterThrew env <;>
        by_cases hb : (breakerOutcome env).invoked <;>
          simp [ht, hb, List.count_cons, List.count_append]
  · intro hsome
    rw [htrace]
    rcases hl : env.limiter with _ | out
    · rw [hl] at hsome; simp at hsome
    · by_cases ht : limiterThrew env <;>
        by_cases hb : (breakerOutcome env).invoked <;>
          simp [ht, hb, List.count_cons, List.count_append]
  · intro hnone c
    rw [htrace, hnone]
    by_cases ht : limiterThrew env <;>
      by_cases hb : (breakerOutcome env).invoked <;>
        simp [ht, hb]
  · rw [htrace]
    constructor
    · intro hmem
      rcases hl : env.limiter with _ | out <;> rw [hl] at hmem <;>
        by_cases ht : limiterThrew env <;>
          by_cases hb : (breakerOutcome env).invoked <;>
            simp [ht, hb] at hmem ⊢
    · intro hcond
      rcases hl : env.limiter with _ | out <;>
        simp [hcond.1, hcond.2]

/-- C1 witness: concrete runs of the amended pipeline theorem — with a
healthy limiter the trace is slot, limiter at cost 42 (the request's
`maxTokens`), adapter through the breaker, release; with a throwing
limiter the adapter is never reached yet the slot is still released
last. -/
theorem c1_witness :
    (clientChat wChatReq wEnvOk).trace =
      [.acquireSlot, .limiterAcquire (some 42), .adapterCall, .releaseSlot] ∧
    (clientChat wChatReq wEnvOk).trace.count (.limiterAcquire (some 42)) = 1 ∧
    (clientChat wChatReq wEnvLimThrow).trace.getLast? = some .releaseSlot ∧
    ChatEvent.adapterCall ∉ (clientChat wChatReq wEnvLimThrow).trace := by
  obtain ⟨ht1, _, _, _, hcnt, _, _⟩ := c1_chat_pipeline wChatReq wEnvOk
  obtain ⟨_, _, hlast, _, _, _, hadp⟩ := c1_chat_pipeline wChatReq wEnvLimThrow
  refine ⟨?_, ?_, hlast, ?_⟩
  · rw [ht1]; rfl
  · have := hcnt rfl
    simpa [wChatReq] using this
  · intro hmem
    have := hadp.mp hmem
    simp [limiterThrew, wEnvLimThrow, wEnvOk] at this

-- ---------- C8: Ollama-only config selects ollama ----------

/-- C8: configuring only an Ollama provider (any base URL, in particular
`http://localhost:11434`) with `defaultProvider` omitted builds a config
whose default provider is `ollama`, passes validation, constructs the
client, and `getActiveProviderName()` returns `ollama`. -/
theorem c8_ollama_default (url : String) :
    ((createConfig { ollamaUrl := some url }).bind clientInit).map getActiveProviderName =
      Except.ok ProviderName.ollama := by
  by_cases hu : url = ""
  · subst hu; rfl
  · simp [createConfig, addOllama, addProvider, build, strTruthy, strOrD, natOrD, hu,
      clientInit, validateConfig, initializeProviders, ctorSucceeds, getActiveProviderName,
      Except.bind, Except.map]

/-- C8 witness: the concrete end-to-end scenario with
`baseUrl = "http://localhost:11434"`. -/
theorem c8_witness :
    ((createConfig { ollamaUrl := some "http://localhost:11434" }).bind clientInit).map
        getActiveProviderName = Except.ok ProviderName.ollama := by
  exact c8_ollama_default "http://localhost:11434"

-- ---------- C2: agent loop iteration cap ----------

theorem runAgentLoopAux_calls_le (oracle : Oracle) (tools : List ToolDefinition)
    (msgsRef : Nat) :
    ∀ (fuel : Nat) (store : Store) (last : Option ChatResponse) (calls : Nat),
      (runAgentLoopAux oracle tools msgsRef fuel store last calls).chatCalls ≤ calls + fuel := by
  intro fuel
  induction fuel with
  | zero =>
    intro store last calls
    rcases last <;> simp [runAgentLoopAux]
  | succ f ih =>
    intro store last calls
    simp only [runAgentLoopAux]
    rcases h : oracle (Store.read store msgsRef) with e | resp
    · simp
    · by_cases he : resp.toolCalls.isEmpty
      · simp [he]
      · simp only [he, if_neg, Bool.false_eq_true, if_false]
        have := ih
          (Store.pushAll (Store.push store msgsRef (assistantMessage resp.content resp.toolCalls))
            msgsRef (toolTurnMessages tools resp.toolCalls))
          (some resp) (calls + 1)
        omega

theorem runAgentLoopAux_cap (oracle : Oracle) (tools : List ToolDefinition)
    (msgsRef : Nat) (h : oracleAlwaysToolCalls oracle) :
    ∀ (fuel : Nat), 1 ≤ fuel →
      ∀ (store : Store) (last : Option ChatResponse) (calls : Nat),
      ∃ (ms : List Message) (r0 : ChatResponse),
        oracle ms = .ok r0 ∧
        (runAgentLoopAux oracle tools msgsRef fuel store last calls).result =
          .ok { r0 with content := r0.content ++ "\n\n[Max iterations reached]" } ∧
        (runAgentLoopAux oracle tools msgsRef fuel store last calls).chatCalls = calls + fuel := by
  intro fuel
  induction fuel with
  | zero => intro h1; omega
  | succ f ih =>
    intro _ store last calls
    obtain ⟨r, hor, hne⟩ := h (Store.read store msgsRef)
    have hemp : r.toolCalls.isEmpty = false := by
      simpa [List.isEmpty_iff] using hne
    cases f with
    | zero =>
      refine ⟨Store.read store msgsRef, r, hor, ?_, ?_⟩ <;>
        simp [runAgentLoopAux, hor, hemp]
    | succ f' =>
      obtain ⟨ms, r0, hor0, hres, hcalls⟩ := ih (by omega)
        (Store.pushAll (Store.push store msgsRef (assistantMessage r.content r.toolCalls))
          msgsRef (toolTurnMessages tools r.toolCalls))
        (some r) (calls + 1)
      refine ⟨ms, r0, hor0, ?_, ?_⟩
      · rw [runAgentLoopAux, hor]
        simp only [hemp, Bool.false_eq_true, if_false]
        exact hres
      · rw [runAgentLoopAux, hor]
        simp only [hemp, Bool.false_eq_true, if_false]
        rw [hcalls]; omega

/-- C2: `runAgentLoop` with `maxIterations = N` issues at most N `chat`
calls, whatever the mocked chat does; and when every turn returns tool
calls (the cap-reaching scenario) and N ≥ 1, the loop does not throw:
it issues exactly N calls and returns a response the mocked chat
produced, with its content suffixed by the literal
`"\n\n[Max iterations reached]"`. -/
theorem c2_agent_loop_cap (oracle : Oracle) (tools : List ToolDefinition)
    (store : Store) (reqRef N : Nat) :
    ((runAgentLoop oracle tools store reqRef N).chatCalls ≤ N) ∧
    (oracleAlwaysToolCalls oracle → 1 ≤ N →
      ∃ (ms : List Message) (r0 : ChatResponse),
        oracle ms = .ok r0 ∧
        (runAgentLoop oracle tools store reqRef N).result =
          .ok { r0 with content := r0.content ++ "\n\n[Max iterations reached]" } ∧
        (runAgentLoop oracle tools store reqRef N).chatCalls = N) := by
  constructor
  · have := runAgentLoopAux_calls_le oracle tools
      (Store.alloc store (Store.read store reqRef)).2 N
      (Store.alloc store (Store.read store reqRef)).1 none 0
    simpa [runAgentLoop] using this
  · intro h hN
    obtain ⟨ms, r0, hor, hres, hcalls⟩ := runAgentLoopAux_cap oracle tools
      (Store.alloc store (Store.read store reqRef)).2 h N hN
      (Store.alloc store (Store.read store reqRef)).1 none 0
    exact ⟨ms, r0, hor, by simpa [runAgentLoop] using hres, by simpa [runAgentLoop] using hcalls⟩

/-- C2 witness: a mocked chat that always requests one tool call, with
`maxIterations = 2`: exactly two chat calls happen and the result is the
mocked response's content with the literal suffix appended. -/
theorem c2_witness :
    (runAgentLoop wOracleTools wTools wStore 0 2).chatCalls ≤ 2 ∧
    (runAgentLoop wOracleTools wTools wStore 0 2).result =
      .ok { wRespTools with content := "thinking\n\n[Max iterations reached]" } ∧
    (runAgentLoop wOracleTools wTools wStore 0 2).chatCalls = 2 := by
  obtain ⟨hle, hcap⟩ := c2_agent_loop_cap wOracleTools wTools wStore 0 2
  obtain ⟨ms, r0, hor, hres, hcalls⟩ :=
    hcap (fun ms => ⟨wRespTools, rfl, by decide⟩) (by decide)
  have hr0 : r0 = wRespTools := by
    have : Except.ok (ε := String) r0 = .ok wRespTools := hor.symm.trans rfl
    simpa using this
  subst hr0
  exact ⟨hle, by simpa using hres, hcalls⟩

-- ---------- C9: the caller's request messages are not mutated ----------

theorem store_read_set_ne (s : Store) (i r : Nat) (v : List Message) (h : r ≠ i) :
    Store.read (s.set i v) r = Store.read s r := by
  simp [Store.read, List.getElem?_set_ne (Ne.symm h)]

theorem runAgentLoopAux_frame (oracle : Oracle) (tools : List ToolDefinition)
    (msgsRef r : Nat) (hr : r ≠ msgsRef) :
    ∀ (fuel : Nat) (store : Store) (last : Option ChatResponse) (calls : Nat),
      Store.read (runAgentLoopAux oracle tools msgsRef fuel store last calls).store r =
        Store.read store r := by
  intro fuel
  induction fuel with
  | zero =>
    intro store last calls
    rcases last <;> simp [runAgentLoopAux]
  | succ f ih =>
    intro store last calls
    simp only [runAgentLoopAux]
    rcases h : oracle (Store.read store msgsRef) with e | resp
    · rfl
    · by_cases he : resp.toolCalls.isEmpty
      · simp [he]
      · simp only [he, Bool.false_eq_true, if_false]
        rw [ih]
        simp [Store.push, Store.pushAll, store_read_set_ne _ _ _ _ hr]

theorem runAgentLoopStreamingAux_frame (oracle : StreamOracle)
    (tools : List ToolDefinition) (msgsRef r : Nat) (hr : r ≠ msgsRef) :
    ∀ (fuel : Nat) (store : Store) (acc : List AgentEvent),
      Store.read (runAgentLoopStreamingAux oracle tools msgsRef fuel store acc).store r =
        Store.read store r := by
  intro fuel
  induction fuel with
  | zero => intro store acc; simp [runAgentLoopStreamingAux]
  | succ f ih =>
    intro store acc
    simp only [runAgentLoopStreamingAux]
    by_cases he : (consumeTurn (oracle (Store.read store msgsRef))).2.1.isEmpty
    · simp [he]
    · simp only [he, Bool.false_eq_true, if_false]
      rw [ih]
      simp [Store.push, Store.pushAll, store_read_set_ne _ _ _ _ hr]

/-- C9: both agent loops copy the caller's message array on entry
(`[...request.messages]`) and append assistant/tool turns only to the
copy: for any iteration budget, mocked collaborators and tools, the array
the caller's request references reads back unchanged afterwards. -/
theorem c9_request_messages_frame (oracle : Oracle) (soracle : StreamOracle)
    (tools : List ToolDefinition) (store : Store) (reqRef N : Nat)
    (h : reqRef < store.length) :
    Store.read (runAgentLoop oracle tools store reqRef N).store reqRef =
      Store.read store reqRef ∧
    Store.read (runAgentLoopStreaming soracle tools store reqRef N).store reqRef =
      Store.read store reqRef := by
  have hne : reqRef ≠ store.length := Nat.ne_of_lt h
  have halloc : Store.read (store ++ [Store.read store reqRef]) reqRef = Store.read store reqRef := by
    simp [Store.read, List.getElem?_append_left h]
  constructor
  · simp only [runAgentLoop, Store.alloc]
    rw [runAgentLoopAux_frame oracle tools store.length reqRef hne]
    exact halloc
  · simp only [runAgentLoopStreaming, Store.alloc]
    rw [runAgentLoopStreamingAux_frame soracle tools store.length reqRef hne]
    exact halloc

/-- C9 witness: with the concrete fixtures (a tool-calling mocked chat, a
streaming mock and two iterations) the caller's message array is intact
after both loops. -/
theorem c9_witness :
    Store.read (runAgentLoop wOracleTools wTools wStore 0 2).store 0 =
      [{ role := .user, content := .str "hi" }] ∧
    Store.read (runAgentLoopStreaming wStreamOracle wTools wStore 0 2).store 0 =
      [{ role := .user, content := .str "hi" }] := by
  obtain ⟨h1, h2⟩ := c9_request_messages_frame wOracleTools wStreamOracle wTools wStore 0 2
    (by decide)
  constructor
  · rw [h1]; rfl
  · rw [h2]; rfl

-- ---------- C10: id/name/arguments guards on streamed tool calls ----------

theorem consumeTurn_calls_filterMap :
    ∀ chunks : List StreamChunk,
      (consumeTurn chunks).2.1 =
        chunks.filterMap (fun c =>
          match c with
          | .tool_call tc => streamedToolCall tc
          | _ => none) := by
  intro chunks
  induction chunks with
  | nil => rfl
  | cons c rest ih =>
    cases c with
    | text s =>
      by_cases hs : s = "" <;> simp [consumeTurn, hs, ih]
    | tool_call tc =>
      rcases h : streamedToolCall tc with _ | call <;> simp [consumeTurn, h, ih]
    | thinking s => simp [consumeTurn, ih]
    | usage u => simp [consumeTurn, ih]
    | error m => simp [consumeTurn, ih]
    | done => simp [consumeTurn, ih]

theorem consumeTurn_events_match_calls :
    ∀ chunks : List StreamChunk,
      (consumeTurn chunks).2.2.filterMap (fun e =>
          match e with
          | .tool_call n a => some (n, a)
          | _ => none) =
        (consumeTurn chunks).2.1.map (fun c => (c.name, c.arguments)) := by
  intro chunks
  induction chunks with
  | nil => rfl
  | cons c rest ih =>
    cases c with
    | text s =>
      by_cases hs : s = "" <;> simp [consumeTurn, hs, ih]
    | tool_call tc =>
      rcases h : streamedToolCall tc with _ | call <;> simp [consumeTurn, h, ih]
    | thinking s => simp [consumeTurn, ih]
    | usage u => simp [consumeTurn, ih]
    | error m => simp [consumeTurn, ih]
    | done => simp [consumeTurn, ih]

/-- C10: (a) `StreamProcessor.processChunk` leaves the state untouched on
a `tool_call` chunk whose partial call has no (truthy) id; (b) a buffered
call reaches `getToolCalls` (and, by the same loop, `finalizeToolCalls`)
only from an entry holding both a truthy name and an arguments object;
(c) the streaming agent loop records exactly the chunks passing the
`tc.id && tc.name && tc.arguments` guard, so (d) a fragment lacking any
of the three is never recorded, and (e) the loop's re-emitted `tool_call`
events are exactly the recorded calls — hence an id-less or name-less
fragment produces neither a finalized `ToolCall` nor a tool execution. -/
theorem c10_streamed_tool_call_guards :
    (∀ (st : SPState) (tc : PartialToolCall), strTruthy tc.id = false →
      processChunk st (.tool_call tc) = st) ∧
    (∀ (st : SPState) (c : ToolCall), c ∈ getToolCalls st →
      ∃ p : PartialToolCall, (c.id, p) ∈ st.toolCallBuffer ∧
        p.name = some c.name ∧ c.name ≠ "" ∧ p.arguments = some c.arguments) ∧
    (∀ chunks : List StreamChunk,
      (consumeTurn chunks).2.1 =
        chunks.filterMap (fun c =>
          match c with
          | .tool_call tc => streamedToolCall tc
          | _ => none)) ∧
    (∀ tc : PartialToolCall,
      strTruthy tc.id = false ∨ strTruthy tc.name = false ∨ tc.arguments = none →
      streamedToolCall tc = none) ∧
    (∀ chunks : List StreamChunk,
      (consumeTurn chunks).2.2.filterMap (fun e =>
          match e with
          | .tool_call n a => some (n, a)
          | _ => none) =
        (consumeTurn chunks).2.1.map (fun c => (c.name, c.arguments))) := by
  refine ⟨?_, ?_, consumeTurn_calls_filterMap, ?_, consumeTurn_events_match_calls⟩
  · intro st tc h
    simp [processChunk, processToolCallChunk, h]
  · intro st c hc
    rw [getToolCalls] at hc
    obtain ⟨kv, hmem, hf⟩ := List.mem_filterMap.mp hc
    rcases hn : kv.2.name with _ | nm
    · rw [hn] at hf; simp at hf
    · rcases ha : kv.2.arguments with _ | args
      · rw [hn, ha] at hf; simp at hf
      · rw [hn, ha] at hf
        by_cases hne : nm = ""
        · simp [hne] at hf
        · simp only [hne, ne_eq, not_false_iff, if_true, Option.some.injEq] at hf
          refine ⟨kv.2, ?_, ?_, ?_, ?_⟩
          · have : c.id = kv.1 := by rw [← hf]
            rw [this]
            simpa using hmem
          · rw [hn, ← hf]
          · rw [← hf]; simpa using hne
          · rw [ha, ← hf]
  · intro tc h
    rcases tc with ⟨i, n, a⟩
    rcases h with h | h | h
    · rcases i with _ | s
      · rfl
      · simp only [strTruthy] at h
        have hs : s = "" := by simpa using h
        subst hs
        rcases n with _ | nm <;> rcases a with _ | ar <;> simp [streamedToolCall]
    · rcases n with _ | s
      · rcases i <;> rfl
      · simp only [strTruthy] at h
        have hs : s = "" := by simpa using h
        subst hs
        rcases i with _ | si
        · rfl
        · rcases a with _ | ar <;> simp [streamedToolCall]
    · subst h
      rcases i <;> rcases n <;> rfl

/-- C10 witness: the theorem applied at concrete inputs — an id-less
fragment leaves an empty processor state unchanged and is never recorded;
the fixture turn records exactly its one completed call and re-emits it
as the single matching event. -/
theorem c10_witness :
    processChunk {} (.tool_call { name := some "x", arguments := some [] }) = ({} : SPState) ∧
    streamedToolCall { name := some "x", arguments := some [] } = none ∧
    (consumeTurn (wStreamOracle [])).2.1 =
      [{ id := "s1", name := "get_weather", arguments := [("location", "Tokyo")] }] := by
  obtain ⟨ha, _, hc, hd, _⟩ := c10_streamed_tool_call_guards
  refine ⟨ha {} { name := some "x", arguments := some [] } rfl,
    hd { name := some "x", arguments := some [] } (Or.inl rfl), ?_⟩
  rw [hc (wStreamOracle [])]
  rfl

-- ---------- C4: stream chunk-sequence termination ----------

theorem wellTerminated_append (payload : List StreamChunk) (t : StreamChunk)
    (hp : ∀ c ∈ payload, isTerminalChunk c = false) (ht : isTerminalChunk t = true) :
    wellTerminated (payload ++ [t]) = true := by
  simp only [wellTerminated, List.getLast?_concat, List.dropLast_concat, ht,
    Bool.true_and, List.all_eq_true]
  intro c hc
  simp [hp c hc]

theorem shape_usage_done (xs : List StreamChunk) (u : TokenUsage)
    (hxs : ∀ c ∈ xs, isTerminalChunk c = false) :
    ∃ payload last, xs ++ [.usage u, .done] = payload ++ [last] ∧
      (∀ c ∈ payload, isTerminalChunk c = false) ∧ isTerminalChunk last = true := by
  refine ⟨xs ++ [.usage u], .done, by simp, ?_, rfl⟩
  intro c hc
  rcases List.mem_append.mp hc with h | h
  · exact hxs c h
  · simp at h; subst h; rfl

theorem ollamaRecChunks_payload (nextId : Nat) (r : OllamaRec) :
    ∀ c ∈ ollamaRecChunks nextId r, isTerminalChunk c = false := by
  intro c hc
  unfold ollamaRecChunks at hc
  rcases List.mem_append.mp hc with h | h
  · split at h
    · simp at h; subst h; rfl
    · simp at h
  · obtain ⟨p, _, hp⟩ := List.mem_map.mp h
    rw [← hp]; rfl

theorem ollamaErrChunk_terminal (ft : Bool) (m : String) :
    isTerminalChunk (ollamaErrChunk ft m) = true := by
  unfold ollamaErrChunk
  split <;> rfl

theorem ollamaLoop_shape (midErr : Option (Bool × String)) :
    ∀ (recs : List OllamaRec) (nextId p t : Nat),
      ((∃ r ∈ recs, r.done = true) ∨ midErr.isSome = true) →
      ∃ payload last, ollamaLoop nextId p t midErr recs = payload ++ [last] ∧
        (∀ c ∈ payload, isTerminalChunk c = false) ∧ isTerminalChunk last = true := by
  intro recs
  induction recs with
  | nil =>
    intro nextId p t h
    rcases h with ⟨r, hr, _⟩ | h
    · simp at hr
    · rcases hm : midErr with _ | e
      · rw [hm] at h; simp at h
      · refine ⟨[], ollamaErrChunk e.1 e.2, by simp [ollamaLoop, hm], by simp, ?_⟩
        exact ollamaErrChunk_terminal e.1 e.2
  | cons r rest ih =>
    intro nextId p t h
    by_cases hd : r.done = true
    · simp only [ollamaLoop, hd, if_true]
      exact shape_usage_done _ _ (ollamaRecChunks_payload nextId r)
    · have h' : (∃ r' ∈ rest, r'.done = true) ∨ midErr.isSome = true := by
        rcases h with ⟨r', hr', hd'⟩ | h
        · rcases List.mem_cons.mp hr' with he | he
          · subst he; exact absurd hd' hd
          · exact Or.inl ⟨r', he, hd'⟩
        · exact Or.inr h
      obtain ⟨payload, last, heq, hp, hl⟩ := ih _ _ _ h'
      refine ⟨ollamaRecChunks nextId r ++ payload, last, ?_, ?_, hl⟩
      · simp only [ollamaLoop, hd, if_false, Bool.false_eq_true]
        rw [heq, List.append_assoc]
      · intro c hc
        rcases List.mem_append.mp hc with hx | hx
        · exact ollamaRecChunks_payload nextId r c hx
        · exact hp c hx

theorem oaiEmitToolCalls_payload (bufs : List (Nat × PartialToolCall)) :
    ∀ c ∈ oaiEmitToolCalls bufs, isTerminalChunk c = false := by
  intro c hc
  obtain ⟨kv, _, hf⟩ := List.mem_filterMap.mp hc
  split at hf
  · split at hf
    · rw [← Option.some.inj hf]; rfl
    · simp at hf
  · simp at hf

theorem oaiLoop_shape (midErr : Option String) :
    ∀ (events : List OAIEvent) (bufs : List (Nat × PartialToolCall)) (usage : Option TokenUsage),
      ∃ payload last, oaiLoop midErr events bufs usage = payload ++ [last] ∧
        (∀ c ∈ payload, isTerminalChunk c = false) ∧ isTerminalChunk last = true := by
  intro events
  induction events with
  | nil =>
    intro bufs usage
    rcases hm : midErr with _ | m
    · refine ⟨oaiEmitToolCalls bufs ++ (match usage with | some u => [.usage u] | none => []),
        .done, ?_, ?_, rfl⟩
      · simp only [oaiLoop, hm]
      · intro c hc
        rcases List.mem_append.mp hc with hx | hx
        · exact oaiEmitToolCalls_payload bufs c hx
        · rcases usage with _ | u <;> simp at hx
          subst hx; rfl
    · exact ⟨[], .error m, by simp [oaiLoop, hm], by simp, rfl⟩
  | cons e rest ih =>
    intro bufs usage
    obtain ⟨payload, last, heq, hp, hl⟩ := ih (oaiApplyEvent bufs e) (oaiUpdateUsage usage e)
    refine ⟨(if strTruthy e.content = true then [.text (e.content.getD "")] else []) ++ payload,
      last, ?_, ?_, hl⟩
    · simp only [oaiLoop]
      rw [heq, List.append_assoc]
    · intro c hc
      rcases List.mem_append.mp hc with hx | hx
      · split at hx
        · simp at hx; subst hx; rfl
        · simp at hx
      · exact hp c hx

theorem gemPartChunks_payload (nextId : Nat) (p : GemPart) :
    ∀ c ∈ gemPartChunks nextId p, isTerminalChunk c = false := by
  intro c hc
  unfold gemPartChunks at hc
  rcases List.mem_append.mp hc with hx | hx
  · rcases List.mem_append.mp hx with hy | hy
    · split at hy
      · simp at hy; subst hy; rfl
      · simp at hy
    · rcases hfc : p.functionCall with _ | fc <;> rw [hfc] at hy
      · simp at hy
      · simp at hy; subst hy; rfl
  · split at hx
    · simp at hx; subst hx; rfl
    · simp at hx

theorem gemPartsChunks_payload (parts : List GemPart) :
    ∀ (nextId : Nat), ∀ c ∈ gemPartsChunks nextId parts, isTerminalChunk c = false := by
  induction parts with
  | nil => intro nextId c hc; simp [gemPartsChunks] at hc
  | cons p ps ih =>
    intro nextId c hc
    unfold gemPartsChunks at hc
    rcases List.mem_append.mp hc with hx | hx
    · exact gemPartChunks_payload nextId p c hx
    · exact ih _ c hx

theorem gemLoop_shape (midErr : Option String) :
    ∀ (recs : List GemRec) (nextId : Nat) (usage : TokenUsage),
      ∃ payload last, gemLoop midErr recs nextId usage = payload ++ [last] ∧
        (∀ c ∈ payload, isTerminalChunk c = false) ∧ isTerminalChunk last = true := by
  intro recs
  induction recs with
  | nil =>
    intro nextId usage
    rcases hm : midErr with _ | m
    · exact ⟨[.usage usage], .done, by simp [gemLoop, hm], by intro c hc; simp at hc; subst hc; rfl, rfl⟩
    · exact ⟨[], .error m, by simp [gemLoop, hm], by simp, rfl⟩
  | cons r rest ih =>
    intro nextId usage
    obtain ⟨payload, last, heq, hp, hl⟩ := ih (nextId + gemPartsIds r.parts) (r.usageMetadata.getD usage)
    refine ⟨gemPartsChunks nextId r.parts ++ payload, last, ?_, ?_, hl⟩
    · simp only [gemLoop]
      rw [heq, List.append_assoc]
    · intro c hc
      rcases List.mem_append.mp hc with hx | hx
      · exact gemPartsChunks_payload r.parts nextId c hx
      · exact hp c hx

theorem anthStep_payload (st : AnthState) (e : AnthEvent) (hne : e ≠ .message_stop) :
    ∀ c ∈ (anthStep st e).2, isTerminalChunk c = false := by
  intro c hc
  cases e with
  | message_start tk => simp [anthStep] at hc
  | content_block_start_tool i n => simp [anthStep] at hc
  | content_block_start_other => simp [anthStep] at hc
  | text_delta s => simp [anthStep] at hc; subst hc; rfl
  | input_json_delta s =>
    rcases h : st.current with _ | tc <;> simp [anthStep, h] at hc
  | thinking_delta s => simp [anthStep] at hc; subst hc; rfl
  | content_block_stop =>
    rcases h : st.current with _ | tc
    · simp [anthStep, h] at hc
    · by_cases hb : st.buffer = ""
      · simp [anthStep, h, hb] at hc
      · simp [anthStep, h, hb] at hc
        subst hc; rfl
  | message_delta tk => simp [anthStep] at hc
  | message_stop => exact absurd rfl hne

theorem anthLoop_stop_shape :
    ∀ (pre : List AnthEvent) (st : AnthState), AnthEvent.message_stop ∉ pre →
      ∃ payload u, anthLoop none (pre ++ [.message_stop]) st =
          payload ++ [.usage u, .done] ∧
        (∀ c ∈ payload, isTerminalChunk c = false) := by
  intro pre
  induction pre with
  | nil =>
    intro st _
    exact ⟨[], st.usage, by simp [anthLoop, anthStep], by simp⟩
  | cons e pre' ih =>
    intro st hne
    have he : e ≠ .message_stop := by
      intro h; exact hne (by simp [h])
    have hpre : AnthEvent.message_stop ∉ pre' := by
      intro h; exact hne (by simp [h])
    obtain ⟨payload, u, heq, hp⟩ := ih (anthStep st e).1 hpre
    refine ⟨(anthStep st e).2 ++ payload, u, ?_, ?_⟩
    · simp only [List.cons_append, anthLoop]
      show (anthStep st e).2 ++
          anthLoop none (pre' ++ [AnthEvent.message_stop]) (anthStep st e).1 =
        (anthStep st e).2 ++ payload ++ [StreamChunk.usage u, StreamChunk.done]
      rw [heq, List.append_assoc]
    · intro c hc
      rcases List.mem_append.mp hc with hx | hx
      · exact anthStep_payload st e he c hx
      · exact hp c hx

theorem anthLoop_err_shape (m : String) :
    ∀ (events : List AnthEvent) (st : AnthState), AnthEvent.message_stop ∉ events →
      ∃ payload, anthLoop (some m) events st = payload ++ [.error m] ∧
        (∀ c ∈ payload, isTerminalChunk c = false) := by
  intro events
  induction events with
  | nil => intro st _; exact ⟨[], by simp [anthLoop], by simp⟩
  | cons e rest ih =>
    intro st hne
    have he : e ≠ .message_stop := by
      intro h; exact hne (by simp [h])
    have hrest : AnthEvent.message_stop ∉ rest := by
      intro h; exact hne (by simp [h])
    obtain ⟨payload, heq, hp⟩ := ih (anthStep st e).1 hrest
    refine ⟨(anthStep st e).2 ++ payload, ?_, ?_⟩
    · simp only [anthLoop]
      rw [heq, List.append_assoc]
    · intro c hc
      rcases List.mem_append.mp hc with hx | hx
      · exact anthStep_payload st e he c hx
      · exact hp c hx

/-- C4 counterexample: the Ollama stream for a vendor NDJSON source that
ends without a `done: true` record (here a single content record) yields
`[text "hi"]` — no terminal `done` or `error` chunk at all, contradicting
the claimed chunk grammar. -/
theorem c4_counterexample : ¬ ollamaAlwaysTerminatedClaim := by
  intro h
  have := h .ok [{ content := some "hi" }] none
  exact absurd this (by decide)

/-- C4 (amended): each adapter's `stream` never throws — setup and
mid-stream failures become one terminal `error` chunk — and the emitted
sequence is payload chunks followed by exactly one `done`/`error`
whenever the vendor source is well formed: unconditionally for OpenAI
and Gemini; for Ollama when some record carries `done: true`, when the
transport fails, or when setup fails; for Anthropic on HTTP/setup
failure, when the event stream ends right after its only `message_stop`,
or when the transport fails before any `message_stop`.  (An Ollama NDJSON
source exhausted without `done`, or an Anthropic SSE source ended without
`message_stop`, ends the stream with no terminal chunk.) -/
theorem c4_stream_termination_amended :
    (∀ (setup : OAISetup) (events : List OAIEvent) (midErr : Option String),
      wellTerminated (openaiStream setup events midErr) = true) ∧
    (∀ (setup : GemSetup) (recs : List GemRec) (midErr : Option String),
      wellTerminated (geminiStream setup recs midErr) = true) ∧
    (∀ (setup : OllamaSetup) (recs : List OllamaRec) (midErr : Option (Bool × String)),
      ((∃ r ∈ recs, r.done = true) ∨ midErr.isSome = true ∨ setup ≠ OllamaSetup.ok) →
      wellTerminated (ollamaStream setup recs midErr) = true) ∧
    (∀ (m : String) (events : List AnthEvent) (midErr : Option String),
      wellTerminated (anthropicStream (.httpError m) events midErr) = true ∧
      wellTerminated (anthropicStream (.fetchThrow m) events midErr) = true) ∧
    (∀ pre : List AnthEvent, AnthEvent.message_stop ∉ pre →
      wellTerminated (anthropicStream .ok (pre ++ [.message_stop]) none) = true) ∧
    (∀ (events : List AnthEvent) (m : String), AnthEvent.message_stop ∉ events →
      wellTerminated (anthropicStream .ok events (some m)) = true) := by
  refine ⟨?_, ?_, ?_, ?_, ?_, ?_⟩
  · intro setup events midErr
    cases setup with
    | ok =>
      obtain ⟨payload, last, heq, hp, hl⟩ := oaiLoop_shape midErr events [] none
      rw [openaiStream, heq]
      exact wellTerminated_append payload last hp hl
    | httpError m => rfl
    | fetchThrow m => rfl
  · intro setup recs midErr
    cases setup with
    | ok =>
      obtain ⟨payload, last, heq, hp, hl⟩ := gemLoop_shape midErr recs 0
        { promptTokens := 0, completionTokens := 0, totalTokens := 0 }
      rw [geminiStream, heq]
      exact wellTerminated_append payload last hp hl
    | httpError m => rfl
    | noBody => rfl
    | fetchThrow m => rfl
  · intro setup recs midErr h
    cases setup with
    | ok =>
      have h' : (∃ r ∈ recs, r.done = true) ∨ midErr.isSome = true := by
        rcases h with h | h | h
        · exact Or.inl h
        · exact Or.inr h
        · exact absurd rfl h
      obtain ⟨payload, last, heq, hp, hl⟩ := ollamaLoop_shape midErr recs 0 0 0 h'
      rw [ollamaStream, heq]
      exact wellTerminated_append payload last hp hl
    | httpError m => rfl
    | fetchThrow ft m =>
      show wellTerminated [ollamaErrChunk ft m] = true
      unfold ollamaErrChunk
      split <;> rfl
  · intro m events midErr
    exact ⟨rfl, rfl⟩
  · intro pre hpre
    obtain ⟨payload, u, heq, hp⟩ := anthLoop_stop_shape pre {} hpre
    rw [anthropicStream, heq]
    have hterm := wellTerminated_append (payload ++ [.usage u]) .done
      (by
        intro c hc
        rcases List.mem_append.mp hc with hx | hx
        · exact hp c hx
        · simp at hx; subst hx; rfl)
      rfl
    simpa [List.append_assoc] using hterm
  · intro events m hev
    obtain ⟨payload, heq, hp⟩ := anthLoop_err_shape m events {} hev
    rw [anthropicStream, heq]
    exact wellTerminated_append payload (.error m) hp rfl

/-- C4 witness: the amended theorem evaluated on concrete streams — an
Ollama stream whose source ends with `done: true`, an OpenAI stream over
an exhausted source, and an Anthropic stream ending right after its
`message_stop` are each terminated by exactly one `done`; a failing
Ollama HTTP setup is terminated by exactly one `error`. -/
theorem c4_witness :
    wellTerminated (ollamaStream .ok [{ content := some "hi", done := true }] none) = true ∧
    wellTerminated (openaiStream .ok [] none) = true ∧
    wellTerminated (anthropicStream .ok [.text_delta "x", .message_stop] none) = true ∧
    wellTerminated (ollamaStream (.httpError "500") [] none) = true := by
  obtain ⟨hoai, _, holl, _, hanth, _⟩ := c4_stream_termination_amended
  refine ⟨holl .ok [{ content := some "hi", done := true }] none
      (Or.inl ⟨{ content := some "hi", done := true }, by simp, rfl⟩),
    hoai .ok [] none, ?_, holl (.httpError "500") [] none (Or.inr (Or.inr (by simp)))⟩
  have := hanth [.text_delta "x"] (by simp)
  simpa using this

-- ---------- C5: streaming tool-call reconstruction ----------

theorem jsonParseObj_empty : jsonParseObj "" = none := rfl

theorem jsonParseObj_some_ne_empty (f : String) (h : (jsonParseObj f).isSome = true) :
    f ≠ "" := by
  intro he
  rw [he] at h
  simp [jsonParseObj_empty] at h

/-- A run of `input_json_delta` events appends the concatenated fragment
text to the buffer and emits nothing, leaving the current tool call in
place. -/
theorem anthLoop_json_deltas :
    ∀ (frags : List String) (rest : List AnthEvent) (tc : PartialToolCall)
      (buf : String) (u : TokenUsage),
      anthLoop none (frags.map .input_json_delta ++ rest)
          { current := some tc, buffer := buf, usage := u } =
        anthLoop none rest
          { current := some tc, buffer := buf ++ concatFrags frags, usage := u } := by
  intro frags
  induction frags with
  | nil => intro rest tc buf u; simp [concatFrags]
  | cons f fs ih =>
    intro rest tc buf u
    simp only [List.map_cons, List.cons_append, anthLoop, anthStep]
    show [] ++ anthLoop none (List.map AnthEvent.input_json_delta fs ++ rest)
        { current := some tc, buffer := buf ++ f, usage := u } = _
    rw [List.nil_append, ih rest tc (buf ++ f) u, concatFrags, ← String.append_assoc]

/-- C5 counterexample: the OpenAI adapter parses each argument fragment
on its own and drops fragments that fail to parse, so the canonical
`{"location":"Tokyo"}` split mid-token into `{"loc` + `ation":"Tokyo"}`
(whose concatenation parses fine) is emitted with empty arguments `{}`
rather than the fully merged object. -/
theorem c5_counterexample : ¬ openaiMergesSplitFragmentsClaim := by
  intro h
  have := h "call_1" "get_weather" ["\x7b\"loc", "ation\":\"Tokyo\"\x7d"]
    [("location", "Tokyo")] (by decide) (by decide) (by decide) (by decide)
  exact absurd this (by decide)

/-- C5 (amended): the Anthropic adapter buffers `input_json_delta`
fragments as raw text and parses once at `content_block_stop`, so for any
fragmentation of the arguments — including splits inside a JSON token —
it emits exactly one completed `tool_call` chunk whose arguments are the
parse of the full concatenation, and no partial object is ever surfaced.
The OpenAI adapter parses each fragment alone and spread-merges the
successes at end of stream, so it reconstructs the full object only when
every fragment is itself a complete JSON object; it still emits exactly
one `tool_call` chunk, only at end of stream. -/
theorem c5_reconstruction_amended :
    (∀ (i n : String) (frags : List String) (args : Args),
      concatFrags frags ≠ "" →
      jsonParseObj (concatFrags frags) = some args →
      anthropicStream .ok
          (.content_block_start_tool i n :: (frags.map .input_json_delta ++ [.content_block_stop]))
          none =
        [.tool_call { id := some i, name := some n, arguments := some args }]) ∧
    (∀ (i n : String) (f : String) (fs : List String),
      i ≠ "" → n ≠ "" →
      (∀ g ∈ f :: fs, (jsonParseObj g).isSome = true) →
      openaiStream .ok (oaiFragEvents i n (f :: fs)) none =
        [.tool_call
            { id := some i, name := some n, arguments := some (oaiFoldFrags (f :: fs)) },
          .done]) := by
  constructor
  · intro i n frags args hne hparse
    rw [anthropicStream]
    simp only [anthLoop, anthStep, List.nil_append]
    rw [anthLoop_json_deltas frags [.content_block_stop]
      { id := some i, name := some n, arguments := some [] } ""
      { promptTokens := 0, completionTokens := 0, totalTokens := 0 }]
    simp [anthLoop, anthStep, hne, hparse]
  · intro i n f fs hi hn hall
    have hloop :
        ∀ (fs' : List String) (buf : PartialToolCall),
          (∀ g ∈ fs', (jsonParseObj g).isSome = true) →
          oaiLoop none (fs'.map mkFragEvent) [(0, buf)] none =
            oaiEmitToolCalls [(0, oaiFoldBuf fs' buf)] ++ [.done] := by
      intro fs'
      induction fs' with
      | nil => intro buf _; simp [oaiLoop, oaiFoldBuf]
      | cons g gs ih =>
        intro buf hg
        have hgs1 : (jsonParseObj g).isSome = true := hg g (by simp)
        obtain ⟨p, hp⟩ := Option.isSome_iff_exists.mp hgs1
        have hgne : g ≠ "" := jsonParseObj_some_ne_empty g hgs1
        have hrest : ∀ x ∈ gs, (jsonParseObj x).isSome = true :=
          fun x hx => hg x (by simp [hx])
        set buf2 : PartialToolCall := { buf with arguments := some (spreadMerge (buf.arguments.getD []) ((jsonParseObj g).getD [])) } with hbuf2
        have happly : oaiApplyEvent [(0, buf)] (mkFragEvent g) = [(0, buf2)] := by
          simp [oaiApplyEvent, mkFragEvent, assocGet, assocSet, oaiUpdateBuffer, strTruthy, hgne, hp, hbuf2]
        have hfold : oaiFoldBuf (g :: gs) buf = oaiFoldBuf gs buf2 := by
          simp [oaiFoldBuf, hbuf2]
        calc oaiLoop none ((g :: gs).map mkFragEvent) [(0, buf)] none
            = oaiLoop none (gs.map mkFragEvent) (oaiApplyEvent [(0, buf)] (mkFragEvent g))
                (oaiUpdateUsage none (mkFragEvent g)) := by
              simp [oaiLoop, mkFragEvent, strTruthy, oaiUpdateUsage]
          _ = oaiLoop none (gs.map mkFragEvent) [(0, buf2)] none := by rw [happly]; rfl
          _ = oaiEmitToolCalls [(0, oaiFoldBuf gs buf2)] ++ [.done] := ih _ hrest
          _ = oaiEmitToolCalls [(0, oaiFoldBuf (g :: gs) buf)] ++ [.done] := by rw [hfold]
    have hfs1 : (jsonParseObj f).isSome = true := hall f (by simp)
    obtain ⟨pf, hpf⟩ := Option.isSome_iff_exists.mp hfs1
    have hfne : f ≠ "" := jsonParseObj_some_ne_empty f hfs1
    set d0 : OAIToolCallDelta := { index := 0, id := some i, name := some n, argumentsFragment := some f } with hd0
    set e0 : OAIEvent := { toolCallDeltas := some [d0] } with he0
    set buf0 : PartialToolCall := { id := some i, name := some n, arguments := some (spreadMerge [] ((jsonParseObj f).getD [])) } with hbuf0
    have hfirst : oaiApplyEvent [] e0 = [(0, buf0)] := by
      simp [oaiApplyEvent, he0, hd0, assocGet, assocSet, oaiUpdateBuffer, strTruthy, hi, hn, hfne, hpf, hbuf0]
    have hid : ∀ (gs : List String) (buf : PartialToolCall),
        (oaiFoldBuf gs buf).id = buf.id ∧ (oaiFoldBuf gs buf).name = buf.name := by
      intro gs
      induction gs with
      | nil => intro buf; exact ⟨rfl, rfl⟩
      | cons g gs2 ih => intro buf; simpa [oaiFoldBuf] using ih _
    have hargs : ∀ (gs : List String) (buf : PartialToolCall) (a0 : Args),
        buf.arguments = some a0 →
        (oaiFoldBuf gs buf).arguments =
          some (gs.foldl (fun a g => spreadMerge a ((jsonParseObj g).getD [])) a0) := by
      intro gs
      induction gs with
      | nil => intro buf a0 h; simpa [oaiFoldBuf] using h
      | cons g gs2 ih =>
        intro buf a0 h
        have := ih { buf with arguments := some (spreadMerge (buf.arguments.getD []) ((jsonParseObj g).getD [])) } (spreadMerge a0 ((jsonParseObj g).getD [])) (by simp [h])
        simpa [oaiFoldBuf, h] using this
    have hcalc : openaiStream .ok (oaiFragEvents i n (f :: fs)) none =
        oaiEmitToolCalls [(0, oaiFoldBuf fs buf0)] ++ [.done] := by
      rw [openaiStream, oaiFragEvents]
      calc oaiLoop none (e0 :: fs.map mkFragEvent) [] none
          = oaiLoop none (fs.map mkFragEvent) (oaiApplyEvent [] e0) (oaiUpdateUsage none e0) := by
            simp [oaiLoop, he0, strTruthy, oaiUpdateUsage]
        _ = oaiLoop none (fs.map mkFragEvent) [(0, buf0)] none := by rw [hfirst]; rfl
        _ = oaiEmitToolCalls [(0, oaiFoldBuf fs buf0)] ++ [.done] :=
            hloop fs buf0 (fun x hx => hall x (by simp [hx]))
    rw [hcalc]
    have hidn := hid fs buf0
    have hargsn := hargs fs buf0 (spreadMerge [] ((jsonParseObj f).getD [])) (by rw [hbuf0])
    have hemit : oaiEmitToolCalls [(0, oaiFoldBuf fs buf0)] =
        [.tool_call { id := some i, name := some n, arguments := some (oaiFoldFrags (f :: fs)) }] := by
      have h1 : (oaiFoldBuf fs buf0).id = some i := by rw [hidn.1, hbuf0]
      have h2 : (oaiFoldBuf fs buf0).name = some n := by rw [hidn.2, hbuf0]
      have h3 : (oaiFoldBuf fs buf0).arguments.getD [] = oaiFoldFrags (f :: fs) := by
        rw [hargsn]
        simp [oaiFoldFrags]
      simp [oaiEmitToolCalls, h1, h2, hi, hn, h3]
    rw [hemit]
    rfl

/-- C5 witness: the amended theorem on the canonical scenario — the
Anthropic adapter reassembles `{"location":"Tokyo"}` from three raw
fragments split inside JSON tokens into one completed call, and the
OpenAI adapter reconstructs the same call from a complete-object
fragment. -/
theorem c5_witness :
    anthropicStream .ok
        (.content_block_start_tool "toolu_1" "get_weather" ::
          (["\x7b\"loc", "ation\":", "\"Tokyo\"\x7d"].map AnthEvent.input_json_delta ++
            [.content_block_stop]))
        none =
      [.tool_call
        { id := some "toolu_1", name := some "get_weather",
          arguments := some [("location", "Tokyo")] }] ∧
    openaiStream .ok (oaiFragEvents "call_1" "get_weather" ["\x7b\"location\":\"Tokyo\"\x7d"])
        none =
      [.tool_call
        { id := some "call_1", name := some "get_weather",
          arguments := some [("location", "Tokyo")] },
        .done] := by
  obtain ⟨hanth, hoai⟩ := c5_reconstruction_amended
  constructor
  · exact hanth "toolu_1" "get_weather" ["\x7b\"loc", "ation\":", "\"Tokyo\"\x7d"]
      [("location", "Tokyo")] (by decide) (by decide)
  · have h := hoai "call_1" "get_weather" "\x7b\"location\":\"Tokyo\"\x7d" []
      (by decide) (by decide) (by intro g hg; simp at hg; subst hg; decide)
    rw [h]
    rfl

end DevMind
